import Mathlib

/-!
# pipe2pdf: the command `run` and the two document builders of `cmd/root.go`

The program is an orchestration of calls into a PDF canvas library, the file
system and the standard streams.  The embedding keeps every such call as an
event of a trace, in program order, so that a statement about what the program
prints, reads, draws or writes is a statement about the trace.

* float64 quantities are kept as the products written in the source (`F64`);
* the outcome of every external call that can fail (reading a file, scanning
  standard input, writing the document) is supplied by a `World`;
* the package-level flag variables are the fields of `Flags`.
-/

set_option autoImplicit false

namespace Pipe2Pdf

/-! ## Data model -/

/-- A float64 quantity, kept as written in the source: a decimal value
`mantissa / 10 ^ scale` (a literal, or the value given to `--font-size`) or a
product of two quantities. -/
inductive F64 where
  | lit (mantissa : Int) (scale : Nat)
  | mul (a b : F64)
  deriving DecidableEq, Repr

/-- The literal `0`. -/
def F64.zero : F64 := F64.lit 0 0

/-- The calls made on the `fpdf` canvas, with their arguments. -/
inductive PdfOp where
  | New (orientationStr unitStr sizeStr fontDirStr : String)
  | AddFont (familyStr styleStr fileStr : String)
  | SetFont (familyStr styleStr : String) (size : F64)
  | SetHeaderFunc
  | SetFooterFunc (pageNumbers : Bool)
  | AddPage
  | SetFontSize (size : F64)
  | CellFormat (w h : F64) (txtStr borderStr : String) (ln : Int) (alignStr : String)
      (fill : Bool) (link : Int) (linkStr : String)
  | Ln (h : F64)
  | MultiCell (w h : F64) (txtStr borderStr alignStr : String) (fill : Bool)
  | OutputFileAndClose (fileStr : String)
  deriving DecidableEq, Repr

/-- What the program does to the outside, in program order. -/
inductive Event where
  | stdout (s : String)
  | stderr (s : String)
  | scanStdin
  | readFile (path : String)
  | pdf (op : PdfOp)
  | exit (code : Nat)
  deriving DecidableEq, Repr

/-- The outcomes of the external calls of one run.  `readFile i path` is what
`os.ReadFile(path)` returns for the file at index `i` of the input list;
`stdinLines` are the tokens the line scanner yields and `stdinErr` is
`scanner.Err()`; `writeErr path` is what `OutputFileAndClose(path)` returns. -/
structure World where
  readFile : Nat → String → Except String String
  stdinLines : List String
  stdinErr : Option String
  writeErr : String → Option String

/-- The package-level variables bound to the command-line flags. -/
structure Flags where
  title : String
  paper : String
  pageBreaks : Bool
  pageNumbers : Bool
  landscape : Bool
  fontSize : F64
  output : String
  font : String
  mono : Bool
  proportional : Bool
  openPdfFile : Bool
  inputFiles : List String

/-- The defaults registered in `init`. -/
def Flags.default : Flags where
  title := ""
  paper := "A4"
  pageBreaks := false
  pageNumbers := false
  landscape := false
  fontSize := F64.lit 120 1
  output := "output.pdf"
  font := "Courier"
  mono := true
  proportional := false
  openPdfFile := false
  inputFiles := []

/-! ## The program -/

/-- `addFont`: the canvas calls made for a supported family, an error
otherwise. -/
def addFont (font : String) : Except String (List PdfOp) :=
  if font = "Courier" then
    Except.ok [PdfOp.AddFont "Courier" "" "courier.json"]
  else if font = "Helvetica" then
    Except.ok [PdfOp.AddFont "Helvetica" "" "helvetica_1.json"]
  else if font = "Arial" then
    Except.ok [PdfOp.AddFont "Arial" "" "arial_1.json"]
  else
    Except.error ("unsupported font: " ++ font)

/-- `openPDF`: the placeholder prints one line. -/
def openPDF (filename : String) : List Event :=
  [Event.stdout ("Opening PDF file: " ++ filename ++ "\n")]

/-- The line height `fontSize*0.45` passed to `MultiCell`. -/
def lineHeight (fontSize : F64) : F64 :=
  F64.mul fontSize (F64.lit 45 2)

/-- The canvas calls up to and including the first page: construction, font
selection, header and footer callbacks, `AddPage` (lines 120-148 of
`createPDFFromContent`, and the same text at lines 189-217 of `createPDF`).
`fontOps` are the calls `addFont` made.  The footer callback is run by the
library; of it only the captured `pageNumbers` is kept. -/
def setupOps (paper : String) (fontSize : F64) (pageNumbers : Bool) (font : String)
    (landscape : Bool) (fontOps : List PdfOp) : List PdfOp :=
  [PdfOp.New (if landscape then "L" else "P") "mm" paper ""] ++ fontOps ++
    [PdfOp.SetFont font "" fontSize, PdfOp.SetHeaderFunc, PdfOp.SetFooterFunc pageNumbers,
     PdfOp.AddPage]

/-- The title block, drawn only for a non-empty title (lines 151-156, and the
same text at lines 220-225). -/
def titleOps (title : String) (fontSize : F64) : List PdfOp :=
  if title ≠ "" then
    [PdfOp.SetFontSize (F64.mul fontSize (F64.lit 15 1)),
     PdfOp.CellFormat F64.zero (F64.mul fontSize (F64.lit 15 1)) title "" 1 "C" false 0 "",
     PdfOp.SetFontSize fontSize,
     PdfOp.Ln fontSize]
  else []

/-- What follows a rendered block inside the loops (lines 162-166 and 237-241):
`AddPage` when `pageBreaks && i < len-1`, otherwise `Ln(fontSize*0.45*2)`.  The
comparison is on Go's `int`, where `len-1` is `-1` for an empty slice. -/
def separator (fontSize : F64) (pageBreaks : Bool) (len : Nat) (i : Nat) : PdfOp :=
  if pageBreaks && decide ((i : Int) < (len : Int) - 1) then PdfOp.AddPage
  else PdfOp.Ln (F64.mul (F64.mul fontSize (F64.lit 45 2)) (F64.lit 2 0))

/-- The loop of `createPDFFromContent` (lines 159-167) from index `i` on, `len`
being the length of the whole slice. -/
def contentLoop (fontSize : F64) (pageBreaks : Bool) (len : Nat) :
    Nat → List String → List Event
  | _, [] => []
  | i, content :: rest =>
    Event.pdf (PdfOp.MultiCell F64.zero (F64.mul fontSize (F64.lit 45 2)) content "" "" false) ::
      Event.pdf (separator fontSize pageBreaks len i) ::
      contentLoop fontSize pageBreaks len (i + 1) rest

/-- The loop of `createPDF` (lines 228-242) from index `i` on, `len` being the
length of the whole file list: a file that cannot be read is reported with
`fmt.Printf` and skipped by `continue`. -/
def fileLoop (w : World) (fontSize : F64) (pageBreaks : Bool) (len : Nat) :
    Nat → List String → List Event
  | _, [] => []
  | i, file :: rest =>
    Event.readFile file ::
      (match w.readFile i file with
       | Except.error err =>
         Event.stdout ("Error reading file " ++ file ++ ": " ++ err ++ "\n") ::
           fileLoop w fontSize pageBreaks len (i + 1) rest
       | Except.ok content =>
         Event.pdf (PdfOp.MultiCell F64.zero (F64.mul fontSize (F64.lit 45 2)) content "" "" false) ::
           Event.pdf (separator fontSize pageBreaks len i) ::
           fileLoop w fontSize pageBreaks len (i + 1) rest)

/-- The end of both builders (lines 169-179, and the same text at lines
244-254): write the document, report, open on request.  `fmt.Printf` prints on
standard output. -/
def finish (w : World) (output : String) (openPdfFile : Bool) : List Event :=
  Event.pdf (PdfOp.OutputFileAndClose output) ::
    (match w.writeErr output with
     | some err => [Event.stdout ("Error writing PDF: " ++ err ++ "\n")]
     | none =>
       Event.stdout ("PDF created: " ++ output ++ "\n") ::
         (if openPdfFile then openPDF output else []))

/-- `createPDFFromContent`: on an `addFont` error the canvas has only been
constructed; the error is printed and the function returns. -/
def createPDFFromContent (w : World) (contents : List String) (title paper : String)
    (fontSize : F64) (pageBreaks pageNumbers : Bool) (output font : String)
    (landscape openPdfFile : Bool) : List Event :=
  match addFont font with
  | Except.error err =>
    [Event.pdf (PdfOp.New (if landscape then "L" else "P") "mm" paper ""),
     Event.stdout ("Error setting font: " ++ err ++ "\n")]
  | Except.ok fontOps =>
    (setupOps paper fontSize pageNumbers font landscape fontOps).map Event.pdf ++
      (titleOps title fontSize).map Event.pdf ++
      contentLoop fontSize pageBreaks contents.length 0 contents ++
      finish w output openPdfFile

/-- `createPDF`: as `createPDFFromContent`, with the loop over the files. -/
def createPDF (w : World) (inputFiles : List String) (title paper : String)
    (fontSize : F64) (pageBreaks pageNumbers : Bool) (output font : String)
    (landscape openPdfFile : Bool) : List Event :=
  match addFont font with
  | Except.error err =>
    [Event.pdf (PdfOp.New (if landscape then "L" else "P") "mm" paper ""),
     Event.stdout ("Error setting font: " ++ err ++ "\n")]
  | Except.ok fontOps =>
    (setupOps paper fontSize pageNumbers font landscape fontOps).map Event.pdf ++
      (titleOps title fontSize).map Event.pdf ++
      fileLoop w fontSize pageBreaks inputFiles.length 0 inputFiles ++
      finish w output openPdfFile

/-- `readStdin`: every scanned line followed by a newline, or the scanner's
error. -/
def readStdin (w : World) : Except String String :=
  let content := w.stdinLines.foldl (fun content line => content ++ (line ++ "\n")) ""
  match w.stdinErr with
  | some err => Except.error err
  | none => Except.ok content

/-- The font resolution at the head of `run`: `proportional` clears `mono`,
then `mono` fixes the family and otherwise the default family is replaced. -/
def resolveFont (proportional mono : Bool) (font : String) : String :=
  let mono := if proportional then false else mono
  if mono then "Courier"
  else if font = "Courier" then "Helvetica"
  else font

/-- `run`.  The assignment to `inputFiles` that follows a successful read of
standard input is left out: nothing reads the variable after it.  `os.Exit(1)`
ends the trace. -/
def run (w : World) (f : Flags) : List Event :=
  let font := resolveFont f.proportional f.mono f.font
  if f.inputFiles.length = 0 then
    Event.scanStdin ::
      (match readStdin w with
       | Except.error err =>
         [Event.stderr ("Error reading from stdin: " ++ err ++ "\n"), Event.exit 1]
       | Except.ok stdinContent =>
         createPDFFromContent w [stdinContent] f.title f.paper f.fontSize f.pageBreaks
           f.pageNumbers f.output font f.landscape f.openPdfFile)
  else
    createPDF w f.inputFiles f.title f.paper f.fontSize f.pageBreaks f.pageNumbers f.output
      font f.landscape f.openPdfFile

/-! ## Observations on a trace -/

/-- The canvas call an event is, if it is one. -/
def opOf : Event → Option PdfOp
  | Event.pdf op => some op
  | _ => none

/-- The text of the block an event renders, if it is a `MultiCell` call. -/
def blockOf : Event → Option String
  | Event.pdf (PdfOp.MultiCell _ _ txt _ _ _) => some txt
  | _ => none

/-- The path an event reads, if it is an `os.ReadFile` call. -/
def pathOf : Event → Option String
  | Event.readFile path => some path
  | _ => none

/-- The canvas calls of a trace, in order. -/
def canvasOps (t : List Event) : List PdfOp :=
  t.filterMap opOf

/-- The texts of the rendered blocks (`MultiCell` calls) of a trace, in order. -/
def blocks (t : List Event) : List String :=
  t.filterMap blockOf

/-- The number of pages started (`AddPage` calls). -/
def pagesStarted (t : List Event) : Nat :=
  t.count (Event.pdf PdfOp.AddPage)

/-- The paths handed to `os.ReadFile`, in order. -/
def filesRead (t : List Event) : List String :=
  t.filterMap pathOf

/-- The contents of the files that are read successfully, in input order, the
first file of the list having index `i`. -/
def goodContents (w : World) : Nat → List String → List String
  | _, [] => []
  | i, file :: rest =>
    match w.readFile i file with
    | Except.error _ => goodContents w (i + 1) rest
    | Except.ok content => content :: goodContents w (i + 1) rest

/-- The line an event prints on standard output, if it prints one there. -/
def stdoutOf : Event → Option String
  | Event.stdout s => some s
  | _ => none

/-- The lines printed on standard output, in order. -/
def stdoutLines (t : List Event) : List String :=
  t.filterMap stdoutOf

/-- The error lines for the files that cannot be read, in input order, the
first file of the list having index `i`. -/
def readErrorLines (w : World) : Nat → List String → List String
  | _, [] => []
  | i, file :: rest =>
    match w.readFile i file with
    | Except.error err =>
      ("Error reading file " ++ file ++ ": " ++ err ++ "\n") :: readErrorLines w (i + 1) rest
    | Except.ok _ => readErrorLines w (i + 1) rest

/-- Whether the file with index `p.1` and path `p.2` is read successfully. -/
def readOk (w : World) (p : Nat × String) : Bool :=
  match w.readFile p.1 p.2 with
  | Except.ok _ => true
  | Except.error _ => false

/-- The family a font name resolves to, in the words of the specification:
monospace is in effect when `proportional` is off and `mono` is on. -/
def resolveFontSpec (proportional mono : Bool) (font : String) : String :=
  if proportional = false ∧ mono = true then "Courier"
  else if font = "Courier" then "Helvetica"
  else font

/-- The three families `addFont` knows. -/
def supported (font : String) : Prop :=
  font = "Courier" ∨ font = "Helvetica" ∨ font = "Arial"

instance (font : String) : Decidable (supported font) := by
  unfold supported; infer_instance

/-- The blocks of a sequence of content units with a separator between
consecutive units and none after the last, in the words of the specification:
the separator is a new page in page-break mode and otherwise a vertical advance
of twice the line height. -/
def unitsSeparated (fontSize : F64) (pageBreaks : Bool) : List String → List PdfOp
  | [] => []
  | [content] => [PdfOp.MultiCell F64.zero (lineHeight fontSize) content "" "" false]
  | content :: next :: rest =>
    PdfOp.MultiCell F64.zero (lineHeight fontSize) content "" "" false ::
      (if pageBreaks then PdfOp.AddPage
       else PdfOp.Ln (F64.mul (lineHeight fontSize) (F64.lit 2 0))) ::
      unitsSeparated fontSize pageBreaks (next :: rest)

/-- Whether the last file of the list is read successfully, the first file of
the list having index `i`; false for the empty list. -/
def lastReadOk (w : World) : Nat → List String → Bool
  | _, [] => false
  | i, [file] =>
    match w.readFile i file with
    | Except.error _ => false
    | Except.ok _ => true
  | i, _ :: next :: rest => lastReadOk w (i + 1) (next :: rest)

/-- A world for the examples: `a.txt` holds "A", `b.txt` holds "B", no other
file can be read; standard input yields `lines` and then `err`; only a path
under `/nowhere/` cannot be written. -/
def exWorld (lines : List String) (err : Option String) : World where
  readFile := fun _ path =>
    if path = "a.txt" then Except.ok "A"
    else if path = "b.txt" then Except.ok "B"
    else Except.error "no such file or directory"
  stdinLines := lines
  stdinErr := err
  writeErr := fun path =>
    if path = "/nowhere/out.pdf" then some "no such file or directory" else none

/-! ## Lemmas on the parts of the program -/

theorem addFont_ok_of_supported {font : String} (h : supported font) :
    ∃ fontOps, addFont font = Except.ok fontOps ∧
      ∀ op ∈ fontOps, ∃ a b c, op = PdfOp.AddFont a b c := by
  rcases h with h | h | h <;> subst h <;> simp [addFont]

theorem addFont_error_of_not_supported {font : String} (h : ¬ supported font) :
    addFont font = Except.error ("unsupported font: " ++ font) := by
  simp only [supported, not_or] at h
  simp [addFont, h.1, h.2.1, h.2.2]

theorem blocks_append (s t : List Event) : blocks (s ++ t) = blocks s ++ blocks t := by
  simp [blocks, List.filterMap_append]

theorem canvasOps_append (s t : List Event) :
    canvasOps (s ++ t) = canvasOps s ++ canvasOps t := by
  simp [canvasOps, List.filterMap_append]

theorem canvasOps_map_pdf (ops : List PdfOp) : canvasOps (ops.map Event.pdf) = ops := by
  induction ops with
  | nil => rfl
  | cons op rest ih =>
    simp only [canvasOps, List.map_cons, List.filterMap_cons, opOf] at ih ⊢
    rw [ih]

theorem pagesStarted_append (s t : List Event) :
    pagesStarted (s ++ t) = pagesStarted s + pagesStarted t := by
  simp [pagesStarted, List.count_append]

theorem filesRead_append (s t : List Event) :
    filesRead (s ++ t) = filesRead s ++ filesRead t := by
  simp [filesRead, List.filterMap_append]

theorem blockOf_separator (fontSize : F64) (pageBreaks : Bool) (len i : Nat) :
    blockOf (Event.pdf (separator fontSize pageBreaks len i)) = none := by
  unfold separator
  split <;> rfl

theorem blockOf_multiCell (w h : F64) (txt b a : String) (fill : Bool) :
    blockOf (Event.pdf (PdfOp.MultiCell w h txt b a fill)) = some txt := rfl

theorem blockOf_readFile (path : String) : blockOf (Event.readFile path) = none := rfl

theorem blocks_setup (paper : String) (fontSize : F64) (pageNumbers : Bool) (font : String)
    (landscape : Bool) (fontOps : List PdfOp)
    (h : ∀ op ∈ fontOps, ∃ a b c, op = PdfOp.AddFont a b c) :
    blocks ((setupOps paper fontSize pageNumbers font landscape fontOps).map Event.pdf) = [] := by
  simp only [setupOps, List.map_append, blocks_append]
  have : blocks (fontOps.map Event.pdf) = [] := by
    induction fontOps with
    | nil => rfl
    | cons op rest ih =>
      obtain ⟨a, b, c, rfl⟩ := h _ (List.mem_cons_self _ _)
      have := ih (fun op hop => h op (List.mem_cons_of_mem _ hop))
      simpa [blocks, blockOf] using this
  rw [this]
  simp [blocks, blockOf]

theorem blocks_title (title : String) (fontSize : F64) :
    blocks ((titleOps title fontSize).map Event.pdf) = [] := by
  unfold titleOps
  split <;> simp [blocks, blockOf]

theorem blocks_finish (w : World) (output : String) (openPdfFile : Bool) :
    blocks (finish w output openPdfFile) = [] := by
  unfold finish
  cases w.writeErr output <;> cases openPdfFile <;> simp [blocks, openPDF, blockOf]

theorem blocks_fileLoop (w : World) (fontSize : F64) (pageBreaks : Bool) (len : Nat)
    (files : List String) :
    ∀ i, blocks (fileLoop w fontSize pageBreaks len i files) = goodContents w i files := by
  induction files with
  | nil => intro i; rfl
  | cons file rest ih =>
    intro i
    simp only [fileLoop, goodContents]
    cases hr : w.readFile i file with
    | error err =>
      have := ih (i + 1)
      simpa [blocks, blockOf] using this
    | ok content =>
      have := ih (i + 1)
      simp only [blocks] at this
      simp [blocks, List.filterMap_cons, blockOf_separator, this, blockOf_readFile,
        blockOf_multiCell]

theorem blocks_contentLoop (fontSize : F64) (pageBreaks : Bool) (len : Nat)
    (contents : List String) :
    ∀ i, blocks (contentLoop fontSize pageBreaks len i contents) = contents := by
  induction contents with
  | nil => intro i; rfl
  | cons content rest ih =>
    intro i
    have := ih (i + 1)
    simp only [blocks] at this
    simp [contentLoop, blocks, List.filterMap_cons, blockOf_separator, this, blockOf_multiCell]

theorem length_goodContents (w : World) (files : List String) :
    ∀ i, (goodContents w i files).length = (files.enumFrom i).countP (readOk w) := by
  induction files with
  | nil => intro i; rfl
  | cons file rest ih =>
    intro i
    rw [List.enumFrom_cons, List.countP_cons, ← ih (i + 1), goodContents]
    have hro : readOk w (i, file) =
        (match w.readFile i file with | Except.ok _ => true | Except.error _ => false) := rfl
    rw [hro]
    cases w.readFile i file with
    | error err => simp
    | ok content => simp

theorem blocks_createPDF (w : World) (inputFiles : List String) (title paper : String)
    (fontSize : F64) (pageBreaks pageNumbers : Bool) (output font : String)
    (landscape openPdfFile : Bool) (hfont : supported font) :
    blocks (createPDF w inputFiles title paper fontSize pageBreaks pageNumbers output font
      landscape openPdfFile) = goodContents w 0 inputFiles := by
  obtain ⟨fontOps, hok, hops⟩ := addFont_ok_of_supported hfont
  simp only [createPDF, hok, blocks_append, blocks_setup _ _ _ _ _ _ hops, blocks_title,
    blocks_finish, blocks_fileLoop, List.nil_append, List.append_nil]

theorem pages_setup (paper : String) (fontSize : F64) (pageNumbers : Bool) (font : String)
    (landscape : Bool) (fontOps : List PdfOp)
    (h : ∀ op ∈ fontOps, ∃ a b c, op = PdfOp.AddFont a b c) :
    pagesStarted ((setupOps paper fontSize pageNumbers font landscape fontOps).map Event.pdf)
      = 1 := by
  simp only [setupOps, List.map_append, pagesStarted_append]
  have : pagesStarted (fontOps.map Event.pdf) = 0 := by
    induction fontOps with
    | nil => rfl
    | cons op rest ih =>
      obtain ⟨a, b, c, rfl⟩ := h _ (List.mem_cons_self _ _)
      have := ih (fun op hop => h op (List.mem_cons_of_mem _ hop))
      simpa [pagesStarted] using this
  rw [this]
  simp [pagesStarted]

theorem pages_title (title : String) (fontSize : F64) :
    pagesStarted ((titleOps title fontSize).map Event.pdf) = 0 := by
  unfold titleOps
  split <;> simp [pagesStarted]

theorem pages_finish (w : World) (output : String) (openPdfFile : Bool) :
    pagesStarted (finish w output openPdfFile) = 0 := by
  unfold finish
  cases w.writeErr output <;> cases openPdfFile <;> simp [pagesStarted, openPDF]

theorem separator_breaks (fontSize : F64) (len i : Nat) (h : i + 1 < len) :
    separator fontSize true len i = PdfOp.AddPage := by
  have : (i : Int) < (len : Int) - 1 := by omega
  simp [separator, this]

theorem separator_last (fontSize : F64) (pageBreaks : Bool) (len i : Nat) (h : len ≤ i + 1) :
    separator fontSize pageBreaks len i =
      PdfOp.Ln (F64.mul (lineHeight fontSize) (F64.lit 2 0)) := by
  have : ¬ ((i : Int) < (len : Int) - 1) := by omega
  simp [separator, this, lineHeight]

theorem separator_off (fontSize : F64) (len i : Nat) :
    separator fontSize false len i =
      PdfOp.Ln (F64.mul (lineHeight fontSize) (F64.lit 2 0)) := by
  simp [separator, lineHeight]

theorem pages_contentLoop (fontSize : F64) (len : Nat) (contents : List String) :
    ∀ i, i + contents.length = len →
      pagesStarted (contentLoop fontSize true len i contents) = contents.length - 1 := by
  induction contents with
  | nil => intro i _; rfl
  | cons content rest ih =>
    intro i hi
    simp only [List.length_cons] at hi
    have hrest := ih (i + 1) (by omega)
    simp only [pagesStarted] at hrest
    cases rest with
    | nil =>
      simp at hi
      simp [contentLoop, pagesStarted, separator_last fontSize true len i (by omega)]
    | cons c2 rest2 =>
      simp only [List.length_cons] at hi hrest
      simp only [contentLoop, pagesStarted, separator_breaks fontSize len i (by omega)] at hrest ⊢
      simp only [List.count_cons, List.length_cons] at hrest ⊢
      simp at hrest ⊢
      omega

theorem pages_fileLoop (w : World) (fontSize : F64) (len : Nat) (files : List String) :
    ∀ i, i + files.length = len →
      (goodContents w i files).length ≤
        pagesStarted (fileLoop w fontSize true len i files) + 1 := by
  induction files with
  | nil => intro i _; simp [goodContents]
  | cons file rest ih =>
    intro i hi
    simp only [List.length_cons] at hi
    have hrest := ih (i + 1) (by omega)
    simp only [pagesStarted] at hrest
    simp only [fileLoop, goodContents]
    cases hr : w.readFile i file with
    | error err =>
      simp only [pagesStarted]
      simpa using hrest
    | ok content =>
      cases rest with
      | nil => simp [goodContents]
      | cons f2 rest2 =>
        simp only [List.length_cons] at hi
        simp only [pagesStarted, separator_breaks fontSize len i (by omega)]
        simp only [List.count_cons, List.length_cons]
        simp at hrest ⊢
        omega

theorem canvasOps_finish (w : World) (output : String) (openPdfFile : Bool) :
    canvasOps (finish w output openPdfFile) = [PdfOp.OutputFileAndClose output] := by
  unfold finish
  cases w.writeErr output <;> cases openPdfFile <;> simp [canvasOps, openPDF, opOf]

theorem separator_inner (fontSize : F64) (pageBreaks : Bool) (len i : Nat) (h : i + 1 < len) :
    separator fontSize pageBreaks len i =
      if pageBreaks then PdfOp.AddPage
      else PdfOp.Ln (F64.mul (lineHeight fontSize) (F64.lit 2 0)) := by
  have : (i : Int) < (len : Int) - 1 := by omega
  simp [separator, this, lineHeight]

theorem canvasOps_contentLoop (fontSize : F64) (pageBreaks : Bool) (len : Nat)
    (contents : List String) :
    ∀ i, i + contents.length = len → contents ≠ [] →
      canvasOps (contentLoop fontSize pageBreaks len i contents) =
        unitsSeparated fontSize pageBreaks contents ++
          [PdfOp.Ln (F64.mul (lineHeight fontSize) (F64.lit 2 0))] := by
  induction contents with
  | nil => intro i _ h; exact absurd rfl h
  | cons content rest ih =>
    intro i hi _
    cases rest with
    | nil =>
      simp only [List.length_cons, List.length_nil] at hi
      simp [contentLoop, canvasOps, opOf, unitsSeparated,
        separator_last fontSize pageBreaks len i (by omega), lineHeight]
    | cons c2 rest2 =>
      simp only [List.length_cons] at hi
      have hrest := ih (i + 1) (by simp only [List.length_cons]; omega) (by simp)
      simp only [canvasOps] at hrest
      simp only [contentLoop, canvasOps, List.filterMap_cons, opOf, unitsSeparated,
        separator_inner fontSize pageBreaks len i (by omega)] at hrest ⊢
      rw [hrest]
      simp [lineHeight]

theorem pagesStarted_eq_count_canvasOps (t : List Event) :
    pagesStarted t = (canvasOps t).count PdfOp.AddPage := by
  induction t with
  | nil => rfl
  | cons e rest ih =>
    simp only [pagesStarted, canvasOps] at ih
    cases e with
    | pdf op =>
      simp only [pagesStarted, canvasOps, List.filterMap_cons, opOf, List.count_cons, ih]
      by_cases h : op = PdfOp.AddPage <;> simp [h]
    | stdout s => simpa [pagesStarted, canvasOps, List.filterMap_cons, opOf] using ih
    | stderr s => simpa [pagesStarted, canvasOps, List.filterMap_cons, opOf] using ih
    | scanStdin => simpa [pagesStarted, canvasOps, List.filterMap_cons, opOf] using ih
    | readFile p => simpa [pagesStarted, canvasOps, List.filterMap_cons, opOf] using ih
    | exit c => simpa [pagesStarted, canvasOps, List.filterMap_cons, opOf] using ih

theorem canvasOps_fileLoop_off (w : World) (fontSize : F64) (files : List String) :
    ∀ i j len len2, canvasOps (fileLoop w fontSize false len i files) =
      canvasOps (contentLoop fontSize false len2 j (goodContents w i files)) := by
  induction files with
  | nil => intro i j len len2; rfl
  | cons file rest ih =>
    intro i j len len2
    simp only [fileLoop, goodContents]
    cases hr : w.readFile i file with
    | error err =>
      have := ih (i + 1) j len len2
      simp only [canvasOps] at this
      simpa [canvasOps, List.filterMap_cons, opOf] using this
    | ok content =>
      have := ih (i + 1) (j + 1) len len2
      simp only [canvasOps] at this
      simp [contentLoop, canvasOps, List.filterMap_cons, opOf, separator_off, this]

theorem canvasOps_fileLoop_none (w : World) (fontSize : F64) (pageBreaks : Bool) (len : Nat)
    (files : List String) :
    ∀ i, goodContents w i files = [] →
      canvasOps (fileLoop w fontSize pageBreaks len i files) = [] := by
  induction files with
  | nil => intro i _; rfl
  | cons file rest ih =>
    intro i hg
    simp only [fileLoop, goodContents] at hg ⊢
    cases hr : w.readFile i file with
    | error err =>
      rw [hr] at hg
      have := ih (i + 1) hg
      simp only [canvasOps] at this
      simpa [canvasOps, List.filterMap_cons, opOf] using this
    | ok content =>
      rw [hr] at hg
      simp at hg

theorem goodContents_ne_nil_of_lastReadOk (w : World) (files : List String) :
    ∀ i, lastReadOk w i files = true → goodContents w i files ≠ [] := by
  induction files with
  | nil => intro i h; simp [lastReadOk] at h
  | cons file rest ih =>
    intro i h
    cases rest with
    | nil =>
      simp only [lastReadOk] at h
      simp only [goodContents]
      cases hr : w.readFile i file with
      | error err => rw [hr] at h; simp at h
      | ok content => simp
    | cons f2 rest2 =>
      simp only [lastReadOk] at h
      have := ih (i + 1) h
      simp only [goodContents] at this ⊢
      cases hr : w.readFile i file with
      | error err => simpa using this
      | ok content => simp

theorem canvasOps_fileLoop_lastOk (w : World) (fontSize : F64) (pageBreaks : Bool)
    (files : List String) :
    ∀ i j len len2, i + files.length = len → j + (goodContents w i files).length = len2 →
      lastReadOk w i files = true →
      canvasOps (fileLoop w fontSize pageBreaks len i files) =
        canvasOps (contentLoop fontSize pageBreaks len2 j (goodContents w i files)) := by
  induction files with
  | nil => intro i j len len2 _ _ h; simp [lastReadOk] at h
  | cons file rest ih =>
    intro i j len len2 hi hj hlast
    cases rest with
    | nil =>
      simp only [lastReadOk] at hlast
      simp only [List.length_cons, List.length_nil] at hi
      simp only [goodContents] at hj
      simp only [fileLoop, goodContents]
      cases hr : w.readFile i file with
      | error err => rw [hr] at hlast; simp at hlast
      | ok content =>
        rw [hr] at hj
        simp only [List.length_cons, List.length_nil] at hj
        simp [contentLoop, canvasOps, List.filterMap_cons, opOf,
          separator_last fontSize pageBreaks len i (by omega),
          separator_last fontSize pageBreaks len2 j (by omega)]
    | cons f2 rest2 =>
      simp only [lastReadOk] at hlast
      simp only [List.length_cons] at hi
      have hne := goodContents_ne_nil_of_lastReadOk w (f2 :: rest2) (i + 1) hlast
      have hlen : 0 < (goodContents w (i + 1) (f2 :: rest2)).length :=
        List.length_pos.mpr hne
      rw [goodContents] at hj
      rw [fileLoop, goodContents]
      cases hr : w.readFile i file with
      | error err =>
        rw [hr] at hj
        simp only at hj
        have := ih (i + 1) j len len2 (by simp only [List.length_cons]; omega) hj hlast
        simp only [canvasOps] at this
        simpa [canvasOps, List.filterMap_cons, opOf] using this
      | ok content =>
        rw [hr] at hj
        simp only [List.length_cons] at hj
        have := ih (i + 1) (j + 1) len len2 (by simp only [List.length_cons]; omega)
          (by omega) hlast
        simp only [canvasOps] at this
        simp [contentLoop, canvasOps, List.filterMap_cons, opOf, this,
          separator_inner fontSize pageBreaks len i (by omega),
          separator_inner fontSize pageBreaks len2 j (by omega)]

theorem pages_fileLoop_lastFails (w : World) (fontSize : F64) (len : Nat)
    (files : List String) :
    ∀ i, i + files.length = len → lastReadOk w i files = false →
      pagesStarted (fileLoop w fontSize true len i files) =
        (goodContents w i files).length := by
  induction files with
  | nil => intro i _ _; rfl
  | cons file rest ih =>
    intro i hi hlast
    cases rest with
    | nil =>
      simp only [lastReadOk] at hlast
      simp only [fileLoop, goodContents]
      cases hr : w.readFile i file with
      | error err => simp [pagesStarted]
      | ok content => rw [hr] at hlast; simp at hlast
    | cons f2 rest2 =>
      simp only [lastReadOk] at hlast
      simp only [List.length_cons] at hi
      have := ih (i + 1) (by simp only [List.length_cons]; omega) hlast
      simp only [pagesStarted] at this
      rw [fileLoop, goodContents]
      cases hr : w.readFile i file with
      | error err => simpa [pagesStarted] using this
      | ok content =>
        simp [pagesStarted, separator_breaks fontSize len i (by omega), this]

theorem ne_of_head_ne {a b : String} (h : a.data.head? ≠ b.data.head?) : a ≠ b :=
  fun hab => h (by rw [hab])

theorem readError_ne_created (file err output : String) :
    "Error reading file " ++ file ++ ": " ++ err ++ "\n" ≠ "PDF created: " ++ output ++ "\n" :=
  ne_of_head_ne (by simp [String.data_append])

theorem readError_ne_opening (file err filename : String) :
    "Error reading file " ++ file ++ ": " ++ err ++ "\n" ≠
      "Opening PDF file: " ++ filename ++ "\n" :=
  ne_of_head_ne (by simp [String.data_append])

theorem writeError_ne_created (err output : String) :
    "Error writing PDF: " ++ err ++ "\n" ≠ "PDF created: " ++ output ++ "\n" :=
  ne_of_head_ne (by simp [String.data_append])

theorem writeError_ne_opening (err filename : String) :
    "Error writing PDF: " ++ err ++ "\n" ≠ "Opening PDF file: " ++ filename ++ "\n" :=
  ne_of_head_ne (by simp [String.data_append])

theorem created_ne_opening (output filename : String) :
    "PDF created: " ++ output ++ "\n" ≠ "Opening PDF file: " ++ filename ++ "\n" :=
  ne_of_head_ne (by simp [String.data_append])

theorem stdout_mem_fileLoop (w : World) (fontSize : F64) (pageBreaks : Bool) (len : Nat)
    (files : List String) (s : String) :
    ∀ i, Event.stdout s ∈ fileLoop w fontSize pageBreaks len i files →
      ∃ file err, s = "Error reading file " ++ file ++ ": " ++ err ++ "\n" := by
  induction files with
  | nil => intro i h; simp [fileLoop] at h
  | cons file rest ih =>
    intro i h
    simp only [fileLoop] at h
    cases hr : w.readFile i file with
    | error err =>
      rw [hr] at h
      simp only [List.mem_cons, Event.stdout.injEq] at h
      rcases h with h | h | h
      · exact absurd h (by simp)
      · exact ⟨file, err, h⟩
      · exact ih (i + 1) h
    | ok content =>
      rw [hr] at h
      simp only [List.mem_cons] at h
      rcases h with h | h | h | h
      · exact absurd h (by simp)
      · exact absurd h (by simp)
      · exact absurd h (by simp)
      · exact ih (i + 1) h

theorem stdout_not_mem_contentLoop (fontSize : F64) (pageBreaks : Bool) (len : Nat)
    (contents : List String) (s : String) :
    ∀ i, Event.stdout s ∉ contentLoop fontSize pageBreaks len i contents := by
  induction contents with
  | nil => intro i; simp [contentLoop]
  | cons content rest ih =>
    intro i
    simp [contentLoop, ih (i + 1)]

theorem stderr_not_mem_fileLoop (w : World) (fontSize : F64) (pageBreaks : Bool) (len : Nat)
    (files : List String) (s : String) :
    ∀ i, Event.stderr s ∉ fileLoop w fontSize pageBreaks len i files := by
  induction files with
  | nil => intro i; simp [fileLoop]
  | cons file rest ih =>
    intro i
    simp only [fileLoop]
    cases hr : w.readFile i file <;> simp [ih (i + 1)]

theorem stderr_not_mem_finish (w : World) (output : String) (openPdfFile : Bool) (s : String) :
    Event.stderr s ∉ finish w output openPdfFile := by
  unfold finish
  cases w.writeErr output <;> cases openPdfFile <;> simp [openPDF]

theorem filesRead_map_pdf (ops : List PdfOp) : filesRead (ops.map Event.pdf) = [] := by
  induction ops with
  | nil => rfl
  | cons op rest ih =>
    simp only [filesRead] at ih
    simp [filesRead, List.filterMap_cons, pathOf, ih]

theorem filesRead_finish (w : World) (output : String) (openPdfFile : Bool) :
    filesRead (finish w output openPdfFile) = [] := by
  unfold finish
  cases w.writeErr output <;> cases openPdfFile <;> simp [filesRead, openPDF, pathOf]

theorem filesRead_fileLoop (w : World) (fontSize : F64) (pageBreaks : Bool) (len : Nat)
    (files : List String) :
    ∀ i, filesRead (fileLoop w fontSize pageBreaks len i files) = files := by
  induction files with
  | nil => intro i; rfl
  | cons file rest ih =>
    intro i
    have := ih (i + 1)
    simp only [filesRead] at this
    simp only [fileLoop]
    cases hr : w.readFile i file <;> simp [filesRead, List.filterMap_cons, pathOf, this]

theorem goodContents_append (w : World) (pre post : List String) :
    ∀ i, goodContents w i (pre ++ post) =
      goodContents w i pre ++ goodContents w (i + pre.length) post := by
  induction pre with
  | nil => intro i; simp [goodContents]
  | cons file rest ih =>
    intro i
    simp only [List.cons_append, goodContents, List.length_cons]
    have : i + (rest.length + 1) = i + 1 + rest.length := by omega
    cases hr : w.readFile i file <;> simp [ih (i + 1), this]

theorem readError_mem_fileLoop (w : World) (fontSize : F64) (pageBreaks : Bool) (len : Nat)
    (pre : List String) (file err : String) (post : List String) :
    ∀ i, w.readFile (i + pre.length) file = Except.error err →
      Event.stdout ("Error reading file " ++ file ++ ": " ++ err ++ "\n") ∈
        fileLoop w fontSize pageBreaks len i (pre ++ file :: post) := by
  induction pre with
  | nil =>
    intro i h
    simp only [List.length_nil, Nat.add_zero] at h
    simp [fileLoop, h]
  | cons p rest ih =>
    intro i h
    have h2 : w.readFile (i + 1 + rest.length) file = Except.error err := by
      rw [← h]; congr 1; simp only [List.length_cons]; omega
    have := ih (i + 1) h2
    simp only [List.cons_append, fileLoop]
    cases hr : w.readFile i p <;> simp [this]

theorem finish_outcome (w : World) (output : String) (openPdfFile : Bool) (pre : List Event)
    (hpre : ∀ s, Event.stdout s ∈ pre →
      ∃ file err, s = "Error reading file " ++ file ++ ": " ++ err ++ "\n") :
    Event.stdout ("PDF created: " ++ output ++ "\n") ∉ pre ∧
    (∀ filename, ∀ e ∈ openPDF filename, e ∉ pre) ∧
    (∀ err, w.writeErr output = some err →
      pre ++ finish w output openPdfFile =
        pre ++ [Event.pdf (PdfOp.OutputFileAndClose output),
          Event.stdout ("Error writing PDF: " ++ err ++ "\n")] ∧
      Event.stdout ("PDF created: " ++ output ++ "\n") ∉ pre ++ finish w output openPdfFile ∧
      ∀ filename, ∀ e ∈ openPDF filename, e ∉ pre ++ finish w output openPdfFile) ∧
    (w.writeErr output = none →
      pre ++ finish w output openPdfFile =
        pre ++ Event.pdf (PdfOp.OutputFileAndClose output) ::
          Event.stdout ("PDF created: " ++ output ++ "\n") ::
          (if openPdfFile then openPDF output else []) ∧
      (pre ++ finish w output openPdfFile).count
        (Event.stdout ("PDF created: " ++ output ++ "\n")) = 1 ∧
      (openPdfFile = false →
        ∀ filename, ∀ e ∈ openPDF filename, e ∉ pre ++ finish w output openPdfFile)) := by
  have hcreated : Event.stdout ("PDF created: " ++ output ++ "\n") ∉ pre := by
    intro hmem
    obtain ⟨file, err, h⟩ := hpre _ hmem
    exact readError_ne_created file err output h.symm
  have hopening : ∀ filename, ∀ e ∈ openPDF filename, e ∉ pre := by
    intro filename e he hmem
    simp only [openPDF, List.mem_singleton] at he
    subst he
    obtain ⟨file, err, h⟩ := hpre _ hmem
    exact readError_ne_opening file err filename h.symm
  refine ⟨hcreated, hopening, ?_, ?_⟩
  · intro err hw
    refine ⟨by simp [finish, hw], ?_, ?_⟩
    · simp only [finish, hw, List.mem_append, List.mem_cons, not_or]
      refine ⟨hcreated, by simp, ?_, by simp⟩
      intro h
      exact writeError_ne_created err output (Event.stdout.inj h).symm
    · intro filename e he
      have hpre2 := hopening filename e he
      simp only [openPDF, List.mem_singleton] at he
      subst he
      simp only [finish, hw, List.mem_append, List.mem_cons, not_or]
      refine ⟨hpre2, by simp, ?_, by simp⟩
      intro h
      exact writeError_ne_opening err filename (Event.stdout.inj h).symm
  · intro hw
    refine ⟨by simp [finish, hw], ?_, ?_⟩
    · rw [List.count_append, List.count_eq_zero.mpr hcreated]
      cases openPdfFile
      · simp [finish, hw]
      · simp only [finish, hw, openPDF, if_true]
        have := created_ne_opening output output
        simp [List.count_cons, this.symm]
    · intro hopen filename e he
      have hpre2 := hopening filename e he
      simp only [openPDF, List.mem_singleton] at he
      subst he
      subst hopen
      simp only [finish, hw, List.mem_append, List.mem_cons, not_or]
      refine ⟨hpre2, by simp, ?_, by simp⟩
      intro h
      exact created_ne_opening output filename (Event.stdout.inj h).symm

theorem stdout_not_mem_map_pdf (ops : List PdfOp) (s : String) :
    Event.stdout s ∉ ops.map Event.pdf := by
  simp

theorem ne_of_data_ne {a b : String} (h : a.data ≠ b.data) : a ≠ b :=
  fun hab => h (by rw [hab])

theorem fontError_ne_readError (msg file err : String) :
    "Error setting font: " ++ msg ++ "\n" ≠
      "Error reading file " ++ file ++ ": " ++ err ++ "\n" :=
  ne_of_data_ne (by simp [String.data_append])

theorem fontError_ne_writeError (msg err : String) :
    "Error setting font: " ++ msg ++ "\n" ≠ "Error writing PDF: " ++ err ++ "\n" :=
  ne_of_data_ne (by simp [String.data_append])

theorem fontError_ne_created (msg output : String) :
    "Error setting font: " ++ msg ++ "\n" ≠ "PDF created: " ++ output ++ "\n" :=
  ne_of_head_ne (by simp [String.data_append])

theorem fontError_ne_opening (msg filename : String) :
    "Error setting font: " ++ msg ++ "\n" ≠ "Opening PDF file: " ++ filename ++ "\n" :=
  ne_of_head_ne (by simp [String.data_append])

theorem stdout_mem_finish (w : World) (output : String) (openPdfFile : Bool) (s : String)
    (h : Event.stdout s ∈ finish w output openPdfFile) :
    (∃ err, s = "Error writing PDF: " ++ err ++ "\n") ∨
      s = "PDF created: " ++ output ++ "\n" ∨
      s = "Opening PDF file: " ++ output ++ "\n" := by
  unfold finish at h
  cases hw : w.writeErr output with
  | some err =>
    rw [hw] at h
    simp at h
    exact Or.inl ⟨err, h⟩
  | none =>
    rw [hw] at h
    cases openPdfFile
    · simp at h
      exact Or.inr (Or.inl h)
    · simp [openPDF] at h
      rcases h with h | h
      · exact Or.inr (Or.inl h)
      · exact Or.inr (Or.inr h)

theorem fontError_not_mem_finish (w : World) (output : String) (openPdfFile : Bool)
    (msg : String) :
    Event.stdout ("Error setting font: " ++ msg ++ "\n") ∉ finish w output openPdfFile := by
  intro h
  rcases stdout_mem_finish w output openPdfFile _ h with ⟨err, h⟩ | h | h
  · exact fontError_ne_writeError msg err h
  · exact fontError_ne_created msg output h
  · exact fontError_ne_opening msg output h

theorem createPDF_unsupported (w : World) (inputFiles : List String) (title paper : String)
    (fontSize : F64) (pageBreaks pageNumbers : Bool) (output font : String)
    (landscape openPdfFile : Bool) (hfont : ¬ supported font) :
    createPDF w inputFiles title paper fontSize pageBreaks pageNumbers output font landscape
      openPdfFile =
      [Event.pdf (PdfOp.New (if landscape then "L" else "P") "mm" paper ""),
       Event.stdout ("Error setting font: " ++ ("unsupported font: " ++ font) ++ "\n")] := by
  simp only [createPDF, addFont_error_of_not_supported hfont]

theorem createPDFFromContent_unsupported (w : World) (contents : List String)
    (title paper : String) (fontSize : F64) (pageBreaks pageNumbers : Bool)
    (output font : String) (landscape openPdfFile : Bool) (hfont : ¬ supported font) :
    createPDFFromContent w contents title paper fontSize pageBreaks pageNumbers output font
      landscape openPdfFile =
      [Event.pdf (PdfOp.New (if landscape then "L" else "P") "mm" paper ""),
       Event.stdout ("Error setting font: " ++ ("unsupported font: " ++ font) ++ "\n")] := by
  simp only [createPDFFromContent, addFont_error_of_not_supported hfont]

theorem createPDF_supported (w : World) (inputFiles : List String) (title paper : String)
    (fontSize : F64) (pageBreaks pageNumbers : Bool) (output font : String)
    (landscape openPdfFile : Bool) (hfont : supported font) :
    Event.pdf (PdfOp.OutputFileAndClose output) ∈
      createPDF w inputFiles title paper fontSize pageBreaks pageNumbers output font landscape
        openPdfFile ∧
    ∀ msg, Event.stdout ("Error setting font: " ++ msg ++ "\n") ∉
      createPDF w inputFiles title paper fontSize pageBreaks pageNumbers output font landscape
        openPdfFile := by
  obtain ⟨fontOps, hok, -⟩ := addFont_ok_of_supported hfont
  constructor
  · simp [createPDF, hok, finish]
  · intro msg
    simp only [createPDF, hok, List.mem_append, not_or]
    refine ⟨⟨⟨by simp, by simp⟩, ?_⟩, fontError_not_mem_finish w output openPdfFile msg⟩
    intro h
    obtain ⟨file, err, h2⟩ := stdout_mem_fileLoop w fontSize pageBreaks _ _ _ 0 h
    exact fontError_ne_readError msg file err h2

theorem createPDFFromContent_supported (w : World) (contents : List String)
    (title paper : String) (fontSize : F64) (pageBreaks pageNumbers : Bool)
    (output font : String) (landscape openPdfFile : Bool) (hfont : supported font) :
    Event.pdf (PdfOp.OutputFileAndClose output) ∈
      createPDFFromContent w contents title paper fontSize pageBreaks pageNumbers output font
        landscape openPdfFile ∧
    ∀ msg, Event.stdout ("Error setting font: " ++ msg ++ "\n") ∉
      createPDFFromContent w contents title paper fontSize pageBreaks pageNumbers output font
        landscape openPdfFile := by
  obtain ⟨fontOps, hok, -⟩ := addFont_ok_of_supported hfont
  constructor
  · simp [createPDFFromContent, hok, finish]
  · intro msg
    simp only [createPDFFromContent, hok, List.mem_append, not_or]
    exact ⟨⟨⟨by simp, by simp⟩, stdout_not_mem_contentLoop fontSize pageBreaks _ _ _ 0⟩,
      fontError_not_mem_finish w output openPdfFile msg⟩

theorem readStdin_ok (w : World) (h : w.stdinErr = none) :
    readStdin w = Except.ok (String.join (w.stdinLines.map (fun line => line ++ "\n"))) := by
  simp [readStdin, h, String.join, List.foldl_map]

theorem run_files (w : World) (f : Flags) (h : f.inputFiles ≠ []) :
    run w f = createPDF w f.inputFiles f.title f.paper f.fontSize f.pageBreaks f.pageNumbers
      f.output (resolveFont f.proportional f.mono f.font) f.landscape f.openPdfFile := by
  have : f.inputFiles.length ≠ 0 := fun h0 => h (List.length_eq_zero.mp h0)
  simp [run, this]

theorem run_stdin (w : World) (f : Flags) (h : f.inputFiles = []) (herr : w.stdinErr = none) :
    run w f = Event.scanStdin ::
      createPDFFromContent w [String.join (w.stdinLines.map (fun line => line ++ "\n"))]
        f.title f.paper f.fontSize f.pageBreaks f.pageNumbers f.output
        (resolveFont f.proportional f.mono f.font) f.landscape f.openPdfFile := by
  simp [run, h, readStdin_ok w herr]

theorem resolveFont_supported_iff (proportional mono : Bool) (font : String) :
    ¬ supported (resolveFont proportional mono font) ↔
      ((proportional = true ∨ mono = false) ∧ ¬ supported font) := by
  cases proportional <;> cases mono <;>
    by_cases h1 : font = "Courier" <;> simp [resolveFont, supported, h1]

theorem run_unsupported (w : World) (f : Flags)
    (hreach : f.inputFiles ≠ [] ∨ w.stdinErr = none)
    (hfont : ¬ supported (resolveFont f.proportional f.mono f.font)) :
    Event.stdout ("Error setting font: " ++
      ("unsupported font: " ++ resolveFont f.proportional f.mono f.font) ++ "\n") ∈ run w f ∧
    ∀ path, Event.pdf (PdfOp.OutputFileAndClose path) ∉ run w f := by
  by_cases hfiles : f.inputFiles = []
  · have herr : w.stdinErr = none := hreach.resolve_left (fun h => h hfiles)
    rw [run_stdin w f hfiles herr, createPDFFromContent_unsupported _ _ _ _ _ _ _ _ _ _ _ hfont]
    exact ⟨by simp, by simp⟩
  · rw [run_files w f hfiles, createPDF_unsupported _ _ _ _ _ _ _ _ _ _ _ hfont]
    exact ⟨by simp, by simp⟩

theorem run_supported (w : World) (f : Flags)
    (hreach : f.inputFiles ≠ [] ∨ w.stdinErr = none)
    (hfont : supported (resolveFont f.proportional f.mono f.font)) :
    Event.pdf (PdfOp.OutputFileAndClose f.output) ∈ run w f ∧
    ∀ msg, Event.stdout ("Error setting font: " ++ msg ++ "\n") ∉ run w f := by
  by_cases hfiles : f.inputFiles = []
  · have herr : w.stdinErr = none := hreach.resolve_left (fun h => h hfiles)
    have h := createPDFFromContent_supported w
      [String.join (w.stdinLines.map (fun line => line ++ "\n"))] f.title f.paper f.fontSize
      f.pageBreaks f.pageNumbers f.output _ f.landscape f.openPdfFile hfont
    rw [run_stdin w f hfiles herr]
    refine ⟨List.mem_cons_of_mem _ h.1, ?_⟩
    intro msg hmem
    rcases List.mem_cons.mp hmem with h2 | h2
    · exact absurd h2 (by simp)
    · exact h.2 msg h2
  · rw [run_files w f hfiles]
    exact createPDF_supported w f.inputFiles f.title f.paper f.fontSize f.pageBreaks
      f.pageNumbers f.output _ f.landscape f.openPdfFile hfont

theorem resolveFont_of_not_mono (proportional mono : Bool) (font : String)
    (hmono : proportional = true ∨ mono = false) (hfont : ¬ supported font) :
    resolveFont proportional mono font = font := by
  have h1 : font ≠ "Courier" := fun h => hfont (Or.inl h)
  rcases hmono with h | h
  · subst h
    simp [resolveFont, h1]
  · subst h
    cases proportional <;> simp [resolveFont, h1]

theorem filesRead_contentLoop (fontSize : F64) (pageBreaks : Bool) (len : Nat)
    (contents : List String) :
    ∀ i, filesRead (contentLoop fontSize pageBreaks len i contents) = [] := by
  induction contents with
  | nil => intro i; rfl
  | cons content rest ih =>
    intro i
    have := ih (i + 1)
    simp only [filesRead] at this
    simp [contentLoop, filesRead, List.filterMap_cons, pathOf, this]

theorem filesRead_createPDFFromContent (w : World) (contents : List String)
    (title paper : String) (fontSize : F64) (pageBreaks pageNumbers : Bool)
    (output font : String) (landscape openPdfFile : Bool) :
    filesRead (createPDFFromContent w contents title paper fontSize pageBreaks pageNumbers
      output font landscape openPdfFile) = [] := by
  by_cases hfont : supported font
  · obtain ⟨fontOps, hok, -⟩ := addFont_ok_of_supported hfont
    simp only [createPDFFromContent, hok, filesRead_append, filesRead_map_pdf,
      filesRead_finish, filesRead_contentLoop, List.append_nil]
  · rw [createPDFFromContent_unsupported _ _ _ _ _ _ _ _ _ _ _ hfont]
    simp [filesRead, List.filterMap_cons, pathOf]

theorem scanStdin_not_mem_fileLoop (w : World) (fontSize : F64) (pageBreaks : Bool)
    (len : Nat) (files : List String) :
    ∀ i, Event.scanStdin ∉ fileLoop w fontSize pageBreaks len i files := by
  induction files with
  | nil => intro i; simp [fileLoop]
  | cons file rest ih =>
    intro i
    simp only [fileLoop]
    cases hr : w.readFile i file <;> simp [ih (i + 1)]

theorem scanStdin_not_mem_createPDF (w : World) (inputFiles : List String)
    (title paper : String) (fontSize : F64) (pageBreaks pageNumbers : Bool)
    (output font : String) (landscape openPdfFile : Bool) :
    Event.scanStdin ∉ createPDF w inputFiles title paper fontSize pageBreaks pageNumbers
      output font landscape openPdfFile := by
  by_cases hfont : supported font
  · obtain ⟨fontOps, hok, -⟩ := addFont_ok_of_supported hfont
    simp only [createPDF, hok, List.mem_append, not_or]
    refine ⟨⟨⟨by simp, by simp⟩, scanStdin_not_mem_fileLoop w fontSize pageBreaks _ _ 0⟩, ?_⟩
    unfold finish
    cases w.writeErr output <;> cases openPdfFile <;> simp [openPDF]
  · rw [createPDF_unsupported _ _ _ _ _ _ _ _ _ _ _ hfont]
    simp

theorem pages_createPDFFromContent_single (w : World) (content : String)
    (title paper : String) (fontSize : F64) (pageBreaks pageNumbers : Bool)
    (output font : String) (landscape openPdfFile : Bool) (hfont : supported font) :
    pagesStarted (createPDFFromContent w [content] title paper fontSize pageBreaks pageNumbers
      output font landscape openPdfFile) = 1 := by
  obtain ⟨fontOps, hok, hops⟩ := addFont_ok_of_supported hfont
  simp only [createPDFFromContent, hok, pagesStarted_append, pages_title, pages_finish,
    pages_setup _ _ _ _ _ _ hops]
  simp [contentLoop, pagesStarted, separator_last fontSize pageBreaks 1 0 (by omega)]

theorem stdoutLines_append (s t : List Event) :
    stdoutLines (s ++ t) = stdoutLines s ++ stdoutLines t := by
  simp [stdoutLines, List.filterMap_append]

theorem stdoutLines_map_pdf (ops : List PdfOp) : stdoutLines (ops.map Event.pdf) = [] := by
  induction ops with
  | nil => rfl
  | cons op rest ih =>
    simp only [stdoutLines] at ih
    simp [stdoutLines, List.filterMap_cons, stdoutOf, ih]

theorem stdoutLines_contentLoop (fontSize : F64) (pageBreaks : Bool) (len : Nat)
    (contents : List String) :
    ∀ i, stdoutLines (contentLoop fontSize pageBreaks len i contents) = [] := by
  induction contents with
  | nil => intro i; rfl
  | cons content rest ih =>
    intro i
    have := ih (i + 1)
    simp only [stdoutLines] at this
    simp [contentLoop, stdoutLines, List.filterMap_cons, stdoutOf, this]

theorem stdoutLines_fileLoop (w : World) (fontSize : F64) (pageBreaks : Bool) (len : Nat)
    (files : List String) :
    ∀ i, stdoutLines (fileLoop w fontSize pageBreaks len i files) =
      readErrorLines w i files := by
  induction files with
  | nil => intro i; rfl
  | cons file rest ih =>
    intro i
    have := ih (i + 1)
    simp only [stdoutLines] at this
    simp only [fileLoop, readErrorLines]
    cases hr : w.readFile i file <;>
      simp [stdoutLines, List.filterMap_cons, stdoutOf, this]

theorem stdoutLines_finish (w : World) (output : String) (openPdfFile : Bool) :
    stdoutLines (finish w output openPdfFile) =
      match w.writeErr output with
      | some err => ["Error writing PDF: " ++ err ++ "\n"]
      | none =>
        ("PDF created: " ++ output ++ "\n") ::
          (if openPdfFile then ["Opening PDF file: " ++ output ++ "\n"] else []) := by
  unfold finish
  cases w.writeErr output <;> cases openPdfFile <;>
    simp [stdoutLines, List.filterMap_cons, stdoutOf, openPDF]

theorem stdoutLines_createPDF (w : World) (inputFiles : List String) (title paper : String)
    (fontSize : F64) (pageBreaks pageNumbers : Bool) (output font : String)
    (landscape openPdfFile : Bool) (hfont : supported font) :
    stdoutLines (createPDF w inputFiles title paper fontSize pageBreaks pageNumbers output font
      landscape openPdfFile) =
      readErrorLines w 0 inputFiles ++
        match w.writeErr output with
        | some err => ["Error writing PDF: " ++ err ++ "\n"]
        | none =>
          ("PDF created: " ++ output ++ "\n") ::
            (if openPdfFile then ["Opening PDF file: " ++ output ++ "\n"] else []) := by
  obtain ⟨fontOps, hok, -⟩ := addFont_ok_of_supported hfont
  simp only [createPDF, hok, stdoutLines_append, stdoutLines_map_pdf, stdoutLines_fileLoop,
    stdoutLines_finish, List.nil_append]

theorem stdoutLines_createPDFFromContent (w : World) (contents : List String)
    (title paper : String) (fontSize : F64) (pageBreaks pageNumbers : Bool)
    (output font : String) (landscape openPdfFile : Bool) (hfont : supported font) :
    stdoutLines (createPDFFromContent w contents title paper fontSize pageBreaks pageNumbers
      output font landscape openPdfFile) =
      match w.writeErr output with
      | some err => ["Error writing PDF: " ++ err ++ "\n"]
      | none =>
        ("PDF created: " ++ output ++ "\n") ::
          (if openPdfFile then ["Opening PDF file: " ++ output ++ "\n"] else []) := by
  obtain ⟨fontOps, hok, -⟩ := addFont_ok_of_supported hfont
  simp only [createPDFFromContent, hok, stdoutLines_append, stdoutLines_map_pdf,
    stdoutLines_contentLoop, stdoutLines_finish, List.nil_append]

theorem pages_createPDFFromContent_unsupported (w : World) (contents : List String)
    (title paper : String) (fontSize : F64) (pageBreaks pageNumbers : Bool)
    (output font : String) (landscape openPdfFile : Bool) (hfont : ¬ supported font) :
    pagesStarted (createPDFFromContent w contents title paper fontSize pageBreaks pageNumbers
      output font landscape openPdfFile) = 0 := by
  rw [createPDFFromContent_unsupported _ _ _ _ _ _ _ _ _ _ _ hfont]
  simp [pagesStarted]

/-- Where the two builders agree: the canvas calls of `createPDF` are those of
`createPDFFromContent` on the contents read exactly when the font is
unsupported, or page-break mode is off, or no file is read, or the last file of
the list is read. -/
theorem canvasOps_createPDF_eq_iff (w : World) (inputFiles : List String) (title paper : String)
    (fontSize : F64) (pageBreaks pageNumbers : Bool) (output font : String)
    (landscape openPdfFile : Bool) :
    canvasOps (createPDF w inputFiles title paper fontSize pageBreaks pageNumbers output font
      landscape openPdfFile) =
    canvasOps (createPDFFromContent w (goodContents w 0 inputFiles) title paper fontSize
      pageBreaks pageNumbers output font landscape openPdfFile) ↔
    (¬ supported font ∨ pageBreaks = false ∨ goodContents w 0 inputFiles = [] ∨
      lastReadOk w 0 inputFiles = true) := by
  by_cases hfont : supported font
  · obtain ⟨fontOps, hok, hops⟩ := addFont_ok_of_supported hfont
    constructor
    · intro heq
      by_contra hnot
      simp only [not_or, not_not, Bool.not_eq_false, Bool.not_eq_true] at hnot
      obtain ⟨-, hpb, hg, hlast⟩ := hnot
      subst hpb
      have hpages := congrArg (List.count PdfOp.AddPage) heq
      rw [← pagesStarted_eq_count_canvasOps, ← pagesStarted_eq_count_canvasOps] at hpages
      simp only [createPDF, createPDFFromContent, hok, pagesStarted_append, pages_title,
        pages_finish, pages_setup _ _ _ _ _ _ hops,
        pages_fileLoop_lastFails w fontSize inputFiles.length inputFiles 0 (by omega) hlast,
        pages_contentLoop fontSize (goodContents w 0 inputFiles).length
          (goodContents w 0 inputFiles) 0 (by omega)] at hpages
      have : 0 < (goodContents w 0 inputFiles).length := List.length_pos.mpr hg
      omega
    · intro h
      simp only [createPDF, createPDFFromContent, hok, canvasOps_append]
      rcases h with h | h | h | h
      · exact absurd hfont h
      · subst h
        rw [canvasOps_fileLoop_off w fontSize inputFiles 0 0 inputFiles.length
          (goodContents w 0 inputFiles).length]
      · rw [canvasOps_fileLoop_none w fontSize pageBreaks inputFiles.length inputFiles 0 h, h]
        rfl
      · rw [canvasOps_fileLoop_lastOk w fontSize pageBreaks inputFiles 0 0 inputFiles.length
          (goodContents w 0 inputFiles).length (by omega) (by omega) h]
  · have herr := addFont_error_of_not_supported hfont
    simp [createPDF, createPDFFromContent, herr, hfont]

/-! ## The `--font` flag (C1) -/

/-- C1, as stated, fails: with `--font unsupported-name` as the only flag the
family is resolved to "Courier", no error is reported and the document is
written. -/
theorem fontFlag_counterexample :
    ¬ supported "unsupported-name" ∧
    run (exWorld ["hello"] none) { Flags.default with font := "unsupported-name" } =
      [Event.scanStdin,
       Event.pdf (PdfOp.New "P" "mm" "A4" ""),
       Event.pdf (PdfOp.AddFont "Courier" "" "courier.json"),
       Event.pdf (PdfOp.SetFont "Courier" "" (F64.lit 120 1)),
       Event.pdf PdfOp.SetHeaderFunc,
       Event.pdf (PdfOp.SetFooterFunc false),
       Event.pdf PdfOp.AddPage,
       Event.pdf (PdfOp.MultiCell (F64.lit 0 0) (F64.mul (F64.lit 120 1) (F64.lit 45 2))
         "hello\n" "" "" false),
       Event.pdf (PdfOp.Ln (F64.mul (F64.mul (F64.lit 120 1) (F64.lit 45 2)) (F64.lit 2 0))),
       Event.pdf (PdfOp.OutputFileAndClose "output.pdf"),
       Event.stdout "PDF created: output.pdf\n"] := by
  constructor
  · decide
  · decide

/-- C1, amended: for a font name other than "Courier", "Helvetica", "Arial" and
a run that reaches a builder (input files are named, or standard input is read
without error): when monospace is not in effect (`--proportional`, or
`--mono=false`) the run prints "Error setting font: unsupported font: <name>"
and never issues the write; when monospace is in effect, as with `--font` alone,
the family is "Courier", no font error is printed and the write is issued. -/
theorem unsupportedFont_run (w : World) (f : Flags) (hfont : ¬ supported f.font)
    (hreach : f.inputFiles ≠ [] ∨ w.stdinErr = none) :
    (f.proportional = true ∨ f.mono = false →
      Event.stdout ("Error setting font: " ++ ("unsupported font: " ++ f.font) ++ "\n") ∈
        run w f ∧
      ∀ path, Event.pdf (PdfOp.OutputFileAndClose path) ∉ run w f) ∧
    (f.proportional = false → f.mono = true →
      resolveFont f.proportional f.mono f.font = "Courier" ∧
      Event.pdf (PdfOp.OutputFileAndClose f.output) ∈ run w f ∧
      ∀ msg, Event.stdout ("Error setting font: " ++ msg ++ "\n") ∉ run w f) := by
  constructor
  · intro hmono
    have hres := resolveFont_of_not_mono f.proportional f.mono f.font hmono hfont
    have hns : ¬ supported (resolveFont f.proportional f.mono f.font) := by
      rw [hres]; exact hfont
    have h := run_unsupported w f hreach hns
    rw [hres] at h
    exact h
  · intro hp hm
    have hres : resolveFont f.proportional f.mono f.font = "Courier" := by
      simp [resolveFont, hp, hm]
    have hs : supported (resolveFont f.proportional f.mono f.font) := by
      rw [hres]; exact Or.inl rfl
    exact ⟨hres, run_supported w f hreach hs⟩

/-- C1 amended, at an instance: `--proportional --font unsupported-name`. -/
theorem unsupportedFont_run_witness :
    ¬ supported
      ({ Flags.default with proportional := true, font := "unsupported-name" } : Flags).font ∧
    (({ Flags.default with proportional := true, font := "unsupported-name" } :
        Flags).inputFiles ≠ [] ∨ (exWorld ["hello"] none).stdinErr = none) ∧
    Event.stdout ("Error setting font: " ++ ("unsupported font: " ++ "unsupported-name") ++
        "\n") ∈
      run (exWorld ["hello"] none)
        { Flags.default with proportional := true, font := "unsupported-name" } :=
  ⟨by decide, Or.inr rfl,
   ((unsupportedFont_run (exWorld ["hello"] none)
      { Flags.default with proportional := true, font := "unsupported-name" } (by decide)
      (Or.inr rfl)).1 (Or.inl rfl)).1⟩

/-! ## Font resolution (C2) -/

/-- C2: the font resolution of `run` is the reference rule for every value of
the three flags; with `proportional` set the family is never "Courier", and
with monospace in effect and the default font it is "Courier". -/
theorem resolveFont_eq_spec (proportional mono : Bool) (font : String) :
    resolveFont proportional mono font = resolveFontSpec proportional mono font ∧
    resolveFont true mono font ≠ "Courier" ∧
    resolveFont false true "Courier" = "Courier" := by
  refine ⟨?_, ?_, ?_⟩
  · cases proportional <;> cases mono <;> simp [resolveFont, resolveFontSpec]
  · simp only [resolveFont]
    by_cases h : font = "Courier"
    · simp [h]
    · simp [h]
  · simp [resolveFont]

/-! ## Blocks rendered in named-input mode (C3) -/

/-- C3: with a supported font `createPDF` renders one block per file that is
read successfully, with that file's contents, in input order; a file that
cannot be read contributes no block, so the number of blocks is the number of
positions of the list whose file is read successfully. -/
theorem createPDF_blocks (w : World) (inputFiles : List String) (title paper : String)
    (fontSize : F64) (pageBreaks pageNumbers : Bool) (output font : String)
    (landscape openPdfFile : Bool) (hfont : supported font) :
    blocks (createPDF w inputFiles title paper fontSize pageBreaks pageNumbers output font
      landscape openPdfFile) = goodContents w 0 inputFiles ∧
    (blocks (createPDF w inputFiles title paper fontSize pageBreaks pageNumbers output font
      landscape openPdfFile)).length = inputFiles.enum.countP (readOk w) := by
  have h := blocks_createPDF w inputFiles title paper fontSize pageBreaks pageNumbers output
    font landscape openPdfFile hfont
  exact ⟨h, by rw [h, length_goodContents]; rfl⟩

/-- C3, at an instance: of `a.txt`, `missing.txt`, `b.txt` two are read. -/
theorem createPDF_blocks_witness :
    supported "Helvetica" ∧
    blocks (createPDF (exWorld [] none) ["a.txt", "missing.txt", "b.txt"] "" "A4"
      (F64.lit 120 1) false false "output.pdf" "Helvetica" false false) = ["A", "B"] :=
  ⟨by decide,
   (createPDF_blocks (exWorld [] none) ["a.txt", "missing.txt", "b.txt"] "" "A4"
      (F64.lit 120 1) false false "output.pdf" "Helvetica" false false (by decide)).1⟩

/-! ## Page-break mode (C4) -/

/-- C4: in page-break mode with a supported font, the pages started are at
least the number of content units rendered, for `createPDFFromContent` over any
contents and for `createPDF` over any file list (the units rendered being the
files read successfully); for two files that are both read, exactly two pages
are started, the first file's block before the page break and the second
file's block after it. -/
theorem pageBreaks_pages (w : World) (title paper : String) (fontSize : F64)
    (pageNumbers : Bool) (output font : String) (landscape openPdfFile : Bool)
    (hfont : supported font) :
    (∀ contents : List String,
      contents.length ≤ pagesStarted (createPDFFromContent w contents title paper fontSize
        true pageNumbers output font landscape openPdfFile)) ∧
    (∀ inputFiles : List String,
      inputFiles.enum.countP (readOk w) ≤ pagesStarted (createPDF w inputFiles title paper
        fontSize true pageNumbers output font landscape openPdfFile)) ∧
    (∀ a b A B : String, w.readFile 0 a = Except.ok A → w.readFile 1 b = Except.ok B →
      pagesStarted (createPDF w [a, b] title paper fontSize true pageNumbers output font
        landscape openPdfFile) = 2 ∧
      ∃ fontOps, addFont font = Except.ok fontOps ∧
        canvasOps (createPDF w [a, b] title paper fontSize true pageNumbers output font
          landscape openPdfFile) =
        setupOps paper fontSize pageNumbers font landscape fontOps ++
          titleOps title fontSize ++
          [PdfOp.MultiCell F64.zero (lineHeight fontSize) A "" "" false,
           PdfOp.AddPage,
           PdfOp.MultiCell F64.zero (lineHeight fontSize) B "" "" false,
           PdfOp.Ln (F64.mul (lineHeight fontSize) (F64.lit 2 0)),
           PdfOp.OutputFileAndClose output]) := by
  obtain ⟨fontOps, hok, hops⟩ := addFont_ok_of_supported hfont
  refine ⟨?_, ?_, ?_⟩
  · intro contents
    simp only [createPDFFromContent, hok, pagesStarted_append, pages_title, pages_finish,
      pages_setup _ _ _ _ _ _ hops, pages_contentLoop fontSize contents.length contents 0
        (by omega)]
    omega
  · intro inputFiles
    have := pages_fileLoop w fontSize inputFiles.length inputFiles 0 (by omega)
    rw [length_goodContents] at this
    simp only [createPDF, hok, pagesStarted_append, pages_title, pages_finish,
      pages_setup _ _ _ _ _ _ hops, List.enum]
    omega
  · intro a b A B ha hb
    constructor
    · simp only [createPDF, hok, pagesStarted_append, pages_title, pages_finish,
        pages_setup _ _ _ _ _ _ hops]
      simp [fileLoop, ha, hb, pagesStarted, separator]
    · refine ⟨fontOps, hok, ?_⟩
      simp only [createPDF, hok, canvasOps_append, canvasOps_map_pdf, canvasOps_finish]
      simp [fileLoop, ha, hb, canvasOps, opOf, separator, lineHeight]

/-- C4, at an instance: the two files `a.txt` and `b.txt` of the example world
in page-break mode. -/
theorem pageBreaks_pages_witness :
    supported "Courier" ∧
    pagesStarted (createPDF (exWorld [] none) ["a.txt", "b.txt"] "" "A4" (F64.lit 120 1)
      true false "output.pdf" "Courier" false false) = 2 :=
  ⟨by decide,
   ((pageBreaks_pages (exWorld [] none) "" "A4" (F64.lit 120 1) false "output.pdf" "Courier"
      false false (by decide)).2.2 "a.txt" "b.txt" "A" "B" (by rfl) (by rfl)).1⟩

/-! ## Separators between units (C5) -/

/-- C5, as stated, fails: for the two units "A" and "B" in page-break mode the
canvas calls are not the separated units followed by the write, because a
vertical advance follows the last unit. -/
theorem lastUnit_counterexample :
    canvasOps (createPDFFromContent (exWorld [] none) ["A", "B"] "" "A4" (F64.lit 120 1)
      true false "output.pdf" "Courier" false false) ≠
      setupOps "A4" (F64.lit 120 1) false "Courier" false
          [PdfOp.AddFont "Courier" "" "courier.json"] ++
        unitsSeparated (F64.lit 120 1) true ["A", "B"] ++
        [PdfOp.OutputFileAndClose "output.pdf"] ∧
    canvasOps (createPDFFromContent (exWorld [] none) ["A", "B"] "" "A4" (F64.lit 120 1)
      true false "output.pdf" "Courier" false false) =
      [PdfOp.New "P" "mm" "A4" "",
       PdfOp.AddFont "Courier" "" "courier.json",
       PdfOp.SetFont "Courier" "" (F64.lit 120 1),
       PdfOp.SetHeaderFunc,
       PdfOp.SetFooterFunc false,
       PdfOp.AddPage,
       PdfOp.MultiCell (F64.lit 0 0) (F64.mul (F64.lit 120 1) (F64.lit 45 2)) "A" "" "" false,
       PdfOp.AddPage,
       PdfOp.MultiCell (F64.lit 0 0) (F64.mul (F64.lit 120 1) (F64.lit 45 2)) "B" "" "" false,
       PdfOp.Ln (F64.mul (F64.mul (F64.lit 120 1) (F64.lit 45 2)) (F64.lit 2 0)),
       PdfOp.OutputFileAndClose "output.pdf"] := by
  constructor
  · decide
  · decide

/-- C5, amended: for a non-empty sequence of content units and a supported
font, `createPDFFromContent` draws the units with a separator after each unit
but the last (a new page in page-break mode, otherwise a vertical advance of
twice the line height), and after the last unit no new page but, in both modes,
a vertical advance of twice the line height, followed by the write. -/
theorem createPDFFromContent_separators (w : World) (contents : List String)
    (title paper : String) (fontSize : F64) (pageBreaks pageNumbers : Bool)
    (output font : String) (landscape openPdfFile : Bool)
    (hne : contents ≠ []) (hfont : supported font) :
    ∃ fontOps, addFont font = Except.ok fontOps ∧
      canvasOps (createPDFFromContent w contents title paper fontSize pageBreaks pageNumbers
        output font landscape openPdfFile) =
      setupOps paper fontSize pageNumbers font landscape fontOps ++
        titleOps title fontSize ++
        unitsSeparated fontSize pageBreaks contents ++
        [PdfOp.Ln (F64.mul (lineHeight fontSize) (F64.lit 2 0)),
         PdfOp.OutputFileAndClose output] := by
  obtain ⟨fontOps, hok, -⟩ := addFont_ok_of_supported hfont
  refine ⟨fontOps, hok, ?_⟩
  simp only [createPDFFromContent, hok, canvasOps_append, canvasOps_map_pdf, canvasOps_finish,
    canvasOps_contentLoop fontSize pageBreaks contents.length contents 0 (by omega) hne]
  simp

/-- C5 amended, at an instance: two units in page-break mode, a new page
between them and the vertical advance after the second. -/
theorem createPDFFromContent_separators_witness :
    ["A", "B"] ≠ ([] : List String) ∧ supported "Courier" ∧
    ∃ fontOps, addFont "Courier" = Except.ok fontOps ∧
      canvasOps (createPDFFromContent (exWorld [] none) ["A", "B"] "" "A4" (F64.lit 120 1)
        true false "output.pdf" "Courier" false false) =
      setupOps "A4" (F64.lit 120 1) false "Courier" false fontOps ++
        titleOps "" (F64.lit 120 1) ++
        [PdfOp.MultiCell F64.zero (lineHeight (F64.lit 120 1)) "A" "" "" false,
         PdfOp.AddPage,
         PdfOp.MultiCell F64.zero (lineHeight (F64.lit 120 1)) "B" "" "" false] ++
        [PdfOp.Ln (F64.mul (lineHeight (F64.lit 120 1)) (F64.lit 2 0)),
         PdfOp.OutputFileAndClose "output.pdf"] :=
  ⟨by decide, by decide,
   createPDFFromContent_separators (exWorld [] none) ["A", "B"] "" "A4" (F64.lit 120 1) true
     false "output.pdf" "Courier" false false (by decide) (by decide)⟩

/-! ## Read errors in named-input mode (C6) -/

/-- C6, as stated, fails: the error for `missing.txt` is printed on standard
output, and nothing is printed on standard error. -/
theorem readError_counterexample :
    createPDF (exWorld [] none) ["missing.txt", "a.txt"] "" "A4" (F64.lit 120 1) false false
      "output.pdf" "Courier" false false =
      [Event.pdf (PdfOp.New "P" "mm" "A4" ""),
       Event.pdf (PdfOp.AddFont "Courier" "" "courier.json"),
       Event.pdf (PdfOp.SetFont "Courier" "" (F64.lit 120 1)),
       Event.pdf PdfOp.SetHeaderFunc,
       Event.pdf (PdfOp.SetFooterFunc false),
       Event.pdf PdfOp.AddPage,
       Event.readFile "missing.txt",
       Event.stdout "Error reading file missing.txt: no such file or directory\n",
       Event.readFile "a.txt",
       Event.pdf (PdfOp.MultiCell (F64.lit 0 0) (F64.mul (F64.lit 120 1) (F64.lit 45 2)) "A"
         "" "" false),
       Event.pdf (PdfOp.Ln (F64.mul (F64.mul (F64.lit 120 1) (F64.lit 45 2)) (F64.lit 2 0))),
       Event.pdf (PdfOp.OutputFileAndClose "output.pdf"),
       Event.stdout "PDF created: output.pdf\n"] ∧
    Event.stderr "Error reading file missing.txt: no such file or directory\n" ∉
      createPDF (exWorld [] none) ["missing.txt", "a.txt"] "" "A4" (F64.lit 120 1) false false
        "output.pdf" "Courier" false false := by
  constructor
  · decide
  · decide

/-- C6, amended: in named-input mode with a supported font, for a file at any
position whose read fails, `createPDF` prints that file's error, naming the
file, on standard output and prints nothing on standard error; every file of
the list is still read, in order, the files read successfully before and after
the failing one are rendered, and the write to the output path is issued. -/
theorem createPDF_readError (w : World) (pre : List String) (file : String)
    (post : List String) (err : String) (title paper : String) (fontSize : F64)
    (pageBreaks pageNumbers : Bool) (output font : String) (landscape openPdfFile : Bool)
    (hfont : supported font) (hread : w.readFile pre.length file = Except.error err) :
    Event.stdout ("Error reading file " ++ file ++ ": " ++ err ++ "\n") ∈
      createPDF w (pre ++ file :: post) title paper fontSize pageBreaks pageNumbers output
        font landscape openPdfFile ∧
    (∀ s, Event.stderr s ∉
      createPDF w (pre ++ file :: post) title paper fontSize pageBreaks pageNumbers output
        font landscape openPdfFile) ∧
    filesRead (createPDF w (pre ++ file :: post) title paper fontSize pageBreaks pageNumbers
      output font landscape openPdfFile) = pre ++ file :: post ∧
    blocks (createPDF w (pre ++ file :: post) title paper fontSize pageBreaks pageNumbers
      output font landscape openPdfFile) =
      goodContents w 0 pre ++ goodContents w (pre.length + 1) post ∧
    Event.pdf (PdfOp.OutputFileAndClose output) ∈
      createPDF w (pre ++ file :: post) title paper fontSize pageBreaks pageNumbers output
        font landscape openPdfFile := by
  obtain ⟨fontOps, hok, hops⟩ := addFont_ok_of_supported hfont
  have hread0 : w.readFile (0 + pre.length) file = Except.error err := by
    rw [Nat.zero_add]; exact hread
  refine ⟨?_, ?_, ?_, ?_, ?_⟩
  · simp only [createPDF, hok, List.mem_append]
    exact Or.inl (Or.inr (readError_mem_fileLoop w fontSize pageBreaks _ pre file err post 0
      hread0))
  · intro s
    simp only [createPDF, hok, List.mem_append, not_or]
    exact ⟨⟨⟨by simp, by simp⟩, stderr_not_mem_fileLoop w fontSize pageBreaks _ _ s 0⟩,
      stderr_not_mem_finish w output openPdfFile s⟩
  · simp only [createPDF, hok, filesRead_append, filesRead_map_pdf, filesRead_finish,
      filesRead_fileLoop, List.nil_append, List.append_nil]
  · rw [blocks_createPDF w (pre ++ file :: post) title paper fontSize pageBreaks pageNumbers
      output font landscape openPdfFile hfont, goodContents_append]
    simp only [goodContents, Nat.zero_add, hread]
  · simp [createPDF, hok, finish]

/-- C6 amended, at an instance: `missing.txt` between `a.txt` and `b.txt`. -/
theorem createPDF_readError_witness :
    supported "Courier" ∧
    (exWorld [] none).readFile 1 "missing.txt" = Except.error "no such file or directory" ∧
    blocks (createPDF (exWorld [] none) ["a.txt", "missing.txt", "b.txt"] "" "A4"
      (F64.lit 120 1) false false "output.pdf" "Courier" false false) = ["A", "B"] :=
  ⟨by decide, by rfl,
   (createPDF_readError (exWorld [] none) ["a.txt"] "missing.txt" ["b.txt"]
      "no such file or directory" "" "A4" (F64.lit 120 1) false false "output.pdf" "Courier"
      false false (by decide) (by rfl)).2.2.2.1⟩

/-! ## The write and what follows it (C7) -/

/-- C7, as stated, fails: after a successful write standard output does not
carry exactly the line "PDF created: output.pdf": `createPDF` has printed the
read error of `missing.txt` before it, and with the open flag `openPDF` prints
its own line after it. -/
theorem successLine_counterexample :
    (exWorld [] none).writeErr "output.pdf" = none ∧
    stdoutLines (createPDF (exWorld [] none) ["missing.txt", "a.txt"] "" "A4" (F64.lit 120 1)
      false false "output.pdf" "Courier" false false) =
      ["Error reading file missing.txt: no such file or directory\n",
       "PDF created: output.pdf\n"] ∧
    stdoutLines (createPDFFromContent (exWorld [] none) ["A"] "" "A4" (F64.lit 120 1)
      false false "output.pdf" "Courier" false true) =
      ["PDF created: output.pdf\n", "Opening PDF file: output.pdf\n"] ∧
    stdoutLines (createPDF (exWorld [] none) ["missing.txt", "a.txt"] "" "A4" (F64.lit 120 1)
      false false "output.pdf" "Courier" false false) ≠ ["PDF created: output.pdf\n"] ∧
    stdoutLines (createPDFFromContent (exWorld [] none) ["A"] "" "A4" (F64.lit 120 1)
      false false "output.pdf" "Courier" false true) ≠ ["PDF created: output.pdf\n"] := by
  refine ⟨?_, ?_, ?_, ?_, ?_⟩ <;> decide

/-- C7, amended: for both builders with a supported font, the trace is a layout
part, which prints neither the line "PDF created: <output>" nor a line of
`openPDF`, followed by the write.  If the write fails, the failure is reported
on standard output and neither that line nor a line of `openPDF` is printed at
all, whatever the open flag; if it succeeds, the line "PDF created: <output>"
is printed exactly once, right after the write, followed by the call of
`openPDF` on the output path when the open flag is set and by nothing when it
is not.  Standard output carries, in this order, the read-error lines of
`createPDF` (none for `createPDFFromContent`), then the write error or the line
"PDF created: <output>", then the line of `openPDF` when it is called, and
nothing else. -/
theorem builders_write (w : World) (inputFiles contents : List String) (title paper : String)
    (fontSize : F64) (pageBreaks pageNumbers : Bool) (output font : String)
    (landscape openPdfFile : Bool) (hfont : supported font) :
    (∀ t, (t = createPDF w inputFiles title paper fontSize pageBreaks pageNumbers output font
              landscape openPdfFile ∨
            t = createPDFFromContent w contents title paper fontSize pageBreaks pageNumbers
              output font landscape openPdfFile) →
        ∃ pre, Event.stdout ("PDF created: " ++ output ++ "\n") ∉ pre ∧
          (∀ filename, ∀ e ∈ openPDF filename, e ∉ pre) ∧
          (∀ err, w.writeErr output = some err →
            t = pre ++ [Event.pdf (PdfOp.OutputFileAndClose output),
              Event.stdout ("Error writing PDF: " ++ err ++ "\n")] ∧
            Event.stdout ("PDF created: " ++ output ++ "\n") ∉ t ∧
            ∀ filename, ∀ e ∈ openPDF filename, e ∉ t) ∧
          (w.writeErr output = none →
            t = pre ++ Event.pdf (PdfOp.OutputFileAndClose output) ::
              Event.stdout ("PDF created: " ++ output ++ "\n") ::
              (if openPdfFile then openPDF output else []) ∧
            t.count (Event.stdout ("PDF created: " ++ output ++ "\n")) = 1 ∧
            (openPdfFile = false → ∀ filename, ∀ e ∈ openPDF filename, e ∉ t))) ∧
    (∀ err, w.writeErr output = some err →
      stdoutLines (createPDF w inputFiles title paper fontSize pageBreaks pageNumbers output
          font landscape openPdfFile) =
        readErrorLines w 0 inputFiles ++ ["Error writing PDF: " ++ err ++ "\n"] ∧
      stdoutLines (createPDFFromContent w contents title paper fontSize pageBreaks
          pageNumbers output font landscape openPdfFile) =
        ["Error writing PDF: " ++ err ++ "\n"]) ∧
    (w.writeErr output = none →
      stdoutLines (createPDF w inputFiles title paper fontSize pageBreaks pageNumbers output
          font landscape openPdfFile) =
        readErrorLines w 0 inputFiles ++ ("PDF created: " ++ output ++ "\n") ::
          (if openPdfFile then ["Opening PDF file: " ++ output ++ "\n"] else []) ∧
      stdoutLines (createPDFFromContent w contents title paper fontSize pageBreaks
          pageNumbers output font landscape openPdfFile) =
        ("PDF created: " ++ output ++ "\n") ::
          (if openPdfFile then ["Opening PDF file: " ++ output ++ "\n"] else [])) := by
  have hCP := stdoutLines_createPDF w inputFiles title paper fontSize pageBreaks pageNumbers
    output font landscape openPdfFile hfont
  have hCC := stdoutLines_createPDFFromContent w contents title paper fontSize pageBreaks
    pageNumbers output font landscape openPdfFile hfont
  refine ⟨?_, ?_, ?_⟩
  · obtain ⟨fontOps, hok, -⟩ := addFont_ok_of_supported hfont
    intro t ht
    rcases ht with ht | ht
    · subst ht
      refine ⟨(setupOps paper fontSize pageNumbers font landscape fontOps).map Event.pdf ++
        (titleOps title fontSize).map Event.pdf ++
        fileLoop w fontSize pageBreaks inputFiles.length 0 inputFiles, ?_⟩
      have hpre : ∀ s, Event.stdout s ∈
          (setupOps paper fontSize pageNumbers font landscape fontOps).map Event.pdf ++
          (titleOps title fontSize).map Event.pdf ++
          fileLoop w fontSize pageBreaks inputFiles.length 0 inputFiles →
          ∃ file err, s = "Error reading file " ++ file ++ ": " ++ err ++ "\n" := by
        intro s hs
        simp only [List.mem_append] at hs
        rcases hs with (hs | hs) | hs
        · exact absurd hs (stdout_not_mem_map_pdf _ s)
        · exact absurd hs (stdout_not_mem_map_pdf _ s)
        · exact stdout_mem_fileLoop w fontSize pageBreaks _ _ s 0 hs
      have h := finish_outcome w output openPdfFile _ hpre
      simp only [createPDF, hok]
      exact h
    · subst ht
      refine ⟨(setupOps paper fontSize pageNumbers font landscape fontOps).map Event.pdf ++
        (titleOps title fontSize).map Event.pdf ++
        contentLoop fontSize pageBreaks contents.length 0 contents, ?_⟩
      have hpre : ∀ s, Event.stdout s ∈
          (setupOps paper fontSize pageNumbers font landscape fontOps).map Event.pdf ++
          (titleOps title fontSize).map Event.pdf ++
          contentLoop fontSize pageBreaks contents.length 0 contents →
          ∃ file err, s = "Error reading file " ++ file ++ ": " ++ err ++ "\n" := by
        intro s hs
        simp only [List.mem_append] at hs
        rcases hs with (hs | hs) | hs
        · exact absurd hs (stdout_not_mem_map_pdf _ s)
        · exact absurd hs (stdout_not_mem_map_pdf _ s)
        · exact absurd hs (stdout_not_mem_contentLoop fontSize pageBreaks _ _ s 0)
      have h := finish_outcome w output openPdfFile _ hpre
      simp only [createPDFFromContent, hok]
      exact h
  · intro err hw
    rw [hCP, hCC, hw]
    exact ⟨rfl, rfl⟩
  · intro hw
    rw [hCP, hCC, hw]
    exact ⟨rfl, rfl⟩

/-- C7 amended, at an instance: a write that fails, with the open flag set, and
a write that succeeds after the read error of `missing.txt`, with the open flag
set. -/
theorem builders_write_witness :
    supported "Arial" ∧
    (exWorld [] none).writeErr "/nowhere/out.pdf" = some "no such file or directory" ∧
    Event.stdout ("PDF created: " ++ "/nowhere/out.pdf" ++ "\n") ∉
      createPDFFromContent (exWorld [] none) ["A"] "" "A4" (F64.lit 120 1) false false
        "/nowhere/out.pdf" "Arial" false true ∧
    (exWorld [] none).writeErr "output.pdf" = none ∧
    stdoutLines (createPDF (exWorld [] none) ["missing.txt", "a.txt"] "" "A4" (F64.lit 120 1)
      false false "output.pdf" "Arial" false true) =
      ["Error reading file " ++ "missing.txt" ++ ": " ++ "no such file or directory" ++ "\n",
       "PDF created: " ++ "output.pdf" ++ "\n",
       "Opening PDF file: " ++ "output.pdf" ++ "\n"] := by
  refine ⟨by decide, by rfl, ?_, by rfl, ?_⟩
  · obtain ⟨pre, -, -, h3, -⟩ := (builders_write (exWorld [] none) [] ["A"] "" "A4"
      (F64.lit 120 1) false false "/nowhere/out.pdf" "Arial" false true (by decide)).1 _
      (Or.inr rfl)
    exact (h3 "no such file or directory" (by rfl)).2.1
  · exact ((builders_write (exWorld [] none) ["missing.txt", "a.txt"] [] "" "A4"
      (F64.lit 120 1) false false "output.pdf" "Arial" false true (by decide)).2.2
      (by rfl)).1

/-! ## The two builders compared (C8) -/

/-- C8, at the input where the code breaks it: in page-break mode, when `a.txt`
is read and the file after it is not, `createPDF` issues `AddPage` after the
last rendered block, where `createPDFFromContent` on the contents read issues
the vertical advance, so the document of `createPDF` ends in an empty page. -/
theorem createPDF_trailingPage :
    (exWorld [] none).readFile 0 "a.txt" = Except.ok "A" ∧
    (exWorld [] none).readFile 1 "missing.txt" = Except.error "no such file or directory" ∧
    canvasOps (createPDF (exWorld [] none) ["a.txt", "missing.txt"] "" "A4" (F64.lit 120 1)
      true false "output.pdf" "Courier" false false) =
      [PdfOp.New "P" "mm" "A4" "",
       PdfOp.AddFont "Courier" "" "courier.json",
       PdfOp.SetFont "Courier" "" (F64.lit 120 1),
       PdfOp.SetHeaderFunc,
       PdfOp.SetFooterFunc false,
       PdfOp.AddPage,
       PdfOp.MultiCell (F64.lit 0 0) (F64.mul (F64.lit 120 1) (F64.lit 45 2)) "A" "" "" false,
       PdfOp.AddPage,
       PdfOp.OutputFileAndClose "output.pdf"] ∧
    canvasOps (createPDFFromContent (exWorld [] none) ["A"] "" "A4" (F64.lit 120 1)
      true false "output.pdf" "Courier" false false) =
      [PdfOp.New "P" "mm" "A4" "",
       PdfOp.AddFont "Courier" "" "courier.json",
       PdfOp.SetFont "Courier" "" (F64.lit 120 1),
       PdfOp.SetHeaderFunc,
       PdfOp.SetFooterFunc false,
       PdfOp.AddPage,
       PdfOp.MultiCell (F64.lit 0 0) (F64.mul (F64.lit 120 1) (F64.lit 45 2)) "A" "" "" false,
       PdfOp.Ln (F64.mul (F64.mul (F64.lit 120 1) (F64.lit 45 2)) (F64.lit 2 0)),
       PdfOp.OutputFileAndClose "output.pdf"] ∧
    canvasOps (createPDF (exWorld [] none) ["a.txt", "missing.txt"] "" "A4" (F64.lit 120 1)
      true false "output.pdf" "Courier" false false) ≠
    canvasOps (createPDFFromContent (exWorld [] none)
      (goodContents (exWorld [] none) 0 ["a.txt", "missing.txt"]) "" "A4" (F64.lit 120 1)
      true false "output.pdf" "Courier" false false) := by
  refine ⟨by rfl, by rfl, ?_, ?_, ?_⟩ <;> decide

/-! ## Standard input (C9) -/

/-- C9, as stated, fails: with empty standard input and the flags
`--proportional --font Comic` the builder is handed the one empty unit but
starts no page. -/
theorem emptyStdin_counterexample :
    run (exWorld [] none) { Flags.default with proportional := true, font := "Comic" } =
      [Event.scanStdin,
       Event.pdf (PdfOp.New "P" "mm" "A4" ""),
       Event.stdout "Error setting font: unsupported font: Comic\n"] ∧
    pagesStarted
      (run (exWorld [] none) { Flags.default with proportional := true, font := "Comic" })
      ≠ 1 := by
  constructor
  · decide
  · decide

/-- C9, amended: with an empty input-file list and standard input read without
error, `run` scans standard input, reads no file and hands
`createPDFFromContent` exactly one unit, the result of `readStdin`: the lines of
standard input each followed by a newline, in order; for empty standard input
that unit is the empty string and exactly one page is started when the
resolved family is supported, none when it is not; with a non-empty input-file
list standard input is not scanned. -/
theorem run_stdin_unit (w : World) (f : Flags) :
    (f.inputFiles = [] → w.stdinErr = none →
      run w f = Event.scanStdin ::
        createPDFFromContent w [String.join (w.stdinLines.map (fun line => line ++ "\n"))]
          f.title f.paper f.fontSize f.pageBreaks f.pageNumbers f.output
          (resolveFont f.proportional f.mono f.font) f.landscape f.openPdfFile ∧
      readStdin w = Except.ok (String.join (w.stdinLines.map (fun line => line ++ "\n"))) ∧
      filesRead (run w f) = [] ∧
      (w.stdinLines = [] →
        String.join (w.stdinLines.map (fun line => line ++ "\n")) = "" ∧
        (supported (resolveFont f.proportional f.mono f.font) →
          pagesStarted (run w f) = 1) ∧
        (¬ supported (resolveFont f.proportional f.mono f.font) →
          pagesStarted (run w f) = 0))) ∧
    (f.inputFiles ≠ [] → Event.scanStdin ∉ run w f) := by
  constructor
  · intro hfiles herr
    have hrun := run_stdin w f hfiles herr
    refine ⟨hrun, readStdin_ok w herr, ?_, ?_⟩
    · rw [hrun]
      have := filesRead_createPDFFromContent w
        [String.join (w.stdinLines.map (fun line => line ++ "\n"))] f.title f.paper f.fontSize
        f.pageBreaks f.pageNumbers f.output (resolveFont f.proportional f.mono f.font)
        f.landscape f.openPdfFile
      simp only [filesRead] at this
      simp [filesRead, List.filterMap_cons, pathOf, this]
    · intro hlines
      refine ⟨by rw [hlines]; rfl, ?_, ?_⟩
      · intro hfont
        rw [hrun]
        have := pages_createPDFFromContent_single w
          (String.join (w.stdinLines.map (fun line => line ++ "\n"))) f.title f.paper
          f.fontSize f.pageBreaks f.pageNumbers f.output
          (resolveFont f.proportional f.mono f.font) f.landscape f.openPdfFile hfont
        simp only [pagesStarted] at this
        simp [pagesStarted, this]
      · intro hfont
        rw [hrun]
        have := pages_createPDFFromContent_unsupported w
          [String.join (w.stdinLines.map (fun line => line ++ "\n"))] f.title f.paper
          f.fontSize f.pageBreaks f.pageNumbers f.output
          (resolveFont f.proportional f.mono f.font) f.landscape f.openPdfFile hfont
        simp only [pagesStarted] at this
        simp [pagesStarted, this]
  · intro hfiles
    rw [run_files w f hfiles]
    exact scanStdin_not_mem_createPDF _ _ _ _ _ _ _ _ _ _ _

/-- C9 amended, at an instance: empty standard input with the default flags. -/
theorem run_stdin_unit_witness :
    Flags.default.inputFiles = [] ∧ (exWorld [] none).stdinErr = none ∧
    (exWorld [] none).stdinLines = [] ∧
    supported (resolveFont Flags.default.proportional Flags.default.mono Flags.default.font) ∧
    pagesStarted (run (exWorld [] none) Flags.default) = 1 :=
  ⟨rfl, rfl, rfl, by decide,
   (((run_stdin_unit (exWorld [] none) Flags.default).1 rfl rfl).2.2.2 rfl).2.1 (by decide)⟩

/-! ## When a font error is reported (C10) -/

/-- C10, as stated, fails: with `--proportional --font Comic`, monospace is not
in effect and the font is none of the three, but when standard input cannot be
read the run ends with exit status 1 before any builder is called and reports
no font error. -/
theorem stdinFailure_counterexample :
    (({ Flags.default with proportional := true, font := "Comic" } : Flags).proportional = true
      ∧ ¬ supported ({ Flags.default with proportional := true, font := "Comic" } : Flags).font)
    ∧
    run (exWorld ["hello"] (some "bufio.Scanner: token too long"))
        { Flags.default with proportional := true, font := "Comic" } =
      [Event.scanStdin,
       Event.stderr "Error reading from stdin: bufio.Scanner: token too long\n",
       Event.exit 1] ∧
    Event.stdout "Error setting font: unsupported font: Comic\n" ∉
      run (exWorld ["hello"] (some "bufio.Scanner: token too long"))
        { Flags.default with proportional := true, font := "Comic" } := by
  refine ⟨⟨rfl, ?_⟩, ?_, ?_⟩
  · decide
  · decide
  · decide

/-- C10, amended: `addFont` returns an error exactly for the names outside
"Courier", "Helvetica", "Arial"; it rejects the family resolved by `run`
exactly when monospace is not in effect and the given font is none of the
three; and a run that reaches a builder (input files are named, or standard
input is read without error) reports a font error, and likewise issues no
write, exactly in that case. -/
theorem fontError_iff (w : World) (f : Flags) :
    (∀ name, (∃ msg, addFont name = Except.error msg) ↔ ¬ supported name) ∧
    ((∃ msg, addFont (resolveFont f.proportional f.mono f.font) = Except.error msg) ↔
      ((f.proportional = true ∨ f.mono = false) ∧ ¬ supported f.font)) ∧
    ((f.inputFiles ≠ [] ∨ w.stdinErr = none) →
      (((∃ msg, Event.stdout ("Error setting font: " ++ msg ++ "\n") ∈ run w f) ∧
          (∀ path, Event.pdf (PdfOp.OutputFileAndClose path) ∉ run w f)) ↔
        ((f.proportional = true ∨ f.mono = false) ∧ ¬ supported f.font)) ∧
      ((∃ msg, Event.stdout ("Error setting font: " ++ msg ++ "\n") ∈ run w f) ↔
        ((f.proportional = true ∨ f.mono = false) ∧ ¬ supported f.font)) ∧
      ((∀ path, Event.pdf (PdfOp.OutputFileAndClose path) ∉ run w f) ↔
        ((f.proportional = true ∨ f.mono = false) ∧ ¬ supported f.font))) := by
  have haddFont : ∀ name, (∃ msg, addFont name = Except.error msg) ↔ ¬ supported name := by
    intro name
    constructor
    · rintro ⟨msg, hmsg⟩ hsup
      obtain ⟨fontOps, hok, -⟩ := addFont_ok_of_supported hsup
      rw [hok] at hmsg
      exact absurd hmsg (by simp)
    · intro h
      exact ⟨_, addFont_error_of_not_supported h⟩
  refine ⟨haddFont, ?_, ?_⟩
  · rw [haddFont, resolveFont_supported_iff]
  · intro hreach
    rw [← resolveFont_supported_iff]
    have hA : (∃ msg, Event.stdout ("Error setting font: " ++ msg ++ "\n") ∈ run w f) ↔
        ¬ supported (resolveFont f.proportional f.mono f.font) := by
      constructor
      · rintro ⟨msg, hmsg⟩ hsup
        exact (run_supported w f hreach hsup).2 msg hmsg
      · intro h
        exact ⟨_, (run_unsupported w f hreach h).1⟩
    have hB : (∀ path, Event.pdf (PdfOp.OutputFileAndClose path) ∉ run w f) ↔
        ¬ supported (resolveFont f.proportional f.mono f.font) := by
      constructor
      · intro hno hsup
        exact hno _ (run_supported w f hreach hsup).1
      · intro h
        exact (run_unsupported w f hreach h).2
    refine ⟨?_, hA, hB⟩
    rw [hA, hB, and_self]

/-- C10, at an instance: `--proportional --font Comic` on the standard input
"hi" reports the font error. -/
theorem fontError_iff_witness :
    (({ Flags.default with proportional := true, font := "Comic" } : Flags).inputFiles ≠ [] ∨
      (exWorld ["hi"] none).stdinErr = none) ∧
    ∃ msg, Event.stdout ("Error setting font: " ++ msg ++ "\n") ∈
      run (exWorld ["hi"] none) { Flags.default with proportional := true, font := "Comic" } :=
  ⟨Or.inr rfl,
   (((fontError_iff (exWorld ["hi"] none)
      { Flags.default with proportional := true, font := "Comic" }).2.2 (Or.inr rfl)).2.1).mpr
     ⟨Or.inl rfl, by decide⟩⟩

end Pipe2Pdf
